import Mathlib

/-!
Verification of the CSOUND parameter-automation and event-scheduling core.

This file gives a shallow embedding, in Lean 4, of the four components of
the core — the environmental crossfader, the spatial synchronization
system, the look-ahead motif schedulers and the timeline automation
binder — translated from the TypeScript sources
(`src/docs/release/roadmap.md` embedded crossfader module,
`src/systems/synchronization.ts`, `src/systems/timelineAudioHooks.ts`,
`src/audio/motifs/*.ts`), and proves or refutes the frozen claims about
them.

Floating-point values of the source are modelled as real numbers.
Mutating methods are modelled as pure functions from state to state,
paired with the ordered trace of operations they issue against the opaque
audio-graph endpoints (`setValueAtTime`, `setValueCurveAtTime`,
`linearRampToValueAtTime`, `cancelScheduledValues`, timer creation and
cancellation, oscillator start/stop).
-/

namespace Csound

/-! ## Timeline automation binder (`src/systems/timelineAudioHooks.ts`) -/

namespace Hooks

/-- The five lifecycle events of `TimelineEvent` in
`timelineAudioHooks.ts`. -/
inductive TimelineEvent where
  | onStart
  | onUpdate
  | onRepeat
  | onComplete
  | onReverseComplete
deriving DecidableEq, Repr

/-- A timeline callback value.  `base n` stands for an arbitrary handler
that was registered on the timeline before the binder ran; `wrapped prev`
is the closure installed by `interceptTimeline`, which captures the
previously registered handler `prev` (the closure also calls the binder's
`handler`, which does not matter for handler bookkeeping). -/
inductive TLCallback where
  | base (n : ℕ)
  | wrapped (prev : Option TLCallback)

/-- The handler table of a `TimelineLike` object: `eventCallback e`
read back as a getter.  `none` models an event with no registered
callback. -/
def TimelineTable : Type := TimelineEvent → Option TLCallback

/-- `DEFAULT_EVENTS` from `timelineAudioHooks.ts`. -/
def DEFAULT_EVENTS : List TimelineEvent :=
  [.onStart, .onUpdate, .onRepeat, .onComplete, .onReverseComplete]

/-- `interceptTimeline` from `timelineAudioHooks.ts`: the `events.forEach`
loop reads the previous handler of each event (`timeline.eventCallback(event)`),
installs the wrapper, and pushes a restore thunk onto `teardownCallbacks`.
Returns the updated handler table together with the recorded teardown data
(event and captured `previous` handler, in push order). -/
def interceptTimeline (tl : TimelineTable) :
    List TimelineEvent → TimelineTable × List (TimelineEvent × Option TLCallback)
  | [] => (tl, [])
  | e :: rest =>
    let previous := tl e
    let next := interceptTimeline (Function.update tl e (some (.wrapped previous))) rest
    (next.1, (e, previous) :: next.2)

/-- Running the teardown returned by `interceptTimeline`:
`teardownCallbacks.forEach((teardown) => teardown())`, each call restoring
one event's handler to the recorded previous value (`previous ?? null`). -/
def runTeardown (tl : TimelineTable) :
    List (TimelineEvent × Option TLCallback) → TimelineTable
  | [] => tl
  | p :: rest => runTeardown (Function.update tl p.1 p.2) rest

/-- `clamp(value, min?, max?)` from `timelineAudioHooks.ts`: apply the
lower bound when present (`Math.max`), then the upper bound when present
(`Math.min`). -/
noncomputable def clamp (value : ℝ) (lo hi : Option ℝ) : ℝ :=
  let lowered := match lo with
    | some m => max m value
    | none => value
  match hi with
  | some m => min m lowered
  | none => lowered

/-- The progress-reading surface of a `TimelineLike` object:
`progress()`, `totalDuration()` and `time()`.  A component is `none` when
the accessor is absent or returns a value that fails the source's
`typeof … === "number" && Number.isFinite(…)` guard, and `some x` when it
returns the finite number `x`. -/
structure TimelineProgressView where
  progress : Option ℝ
  totalDuration : Option ℝ
  time : Option ℝ

/-- `getProgress` from `timelineAudioHooks.ts`: a finite `progress()`
clamped to `[0,1]`; otherwise `time()/totalDuration()` clamped to `[0,1]`
when `totalDuration()` is a positive number and `time()` is finite;
otherwise `0`. -/
noncomputable def getProgress (tl : TimelineProgressView) : ℝ :=
  match tl.progress with
  | some value => clamp value (some 0) (some 1)
  | none =>
    match tl.totalDuration, tl.time with
    | some totalDuration, some currentTime =>
      if 0 < totalDuration then clamp (currentTime / totalDuration) (some 0) (some 1)
      else 0
    | some _, none => 0
    | none, _ => 0

/-- `AutomationDefinition` from `timelineAudioHooks.ts`.  The audio
parameter endpoint is identified by a numeric id. -/
structure AutomationDefinition where
  param : ℕ
  mapValue : ℝ → ℝ
  min : Option ℝ := none
  max : Option ℝ := none
  smoothingTime : Option ℝ := none

/-- One operation issued against an `AudioParam` endpoint by the binder. -/
inductive ParamOp where
  | cancel (param : ℕ) (time : ℝ)
  | setValue (param : ℕ) (value : ℝ) (time : ℝ)
  | linearRamp (param : ℕ) (value : ℝ) (endTime : ℝ)

/-- The endpoint an operation addresses. -/
def ParamOp.target : ParamOp → ℕ
  | .cancel p _ => p
  | .setValue p _ _ => p
  | .linearRamp p _ _ => p

/-- Whether the operation is a `cancelScheduledValues` call. -/
def ParamOp.isCancelOp : ParamOp → Bool
  | .cancel _ _ => true
  | _ => false

/-- The body of the `automations.forEach` loop inside `apply` in
`bindTimelineToAudio`: clamp the mapped value, cancel scheduled values
from `audioTime`, then either ramp (when `smoothingTime ?? 0 > 0`) or set
instantaneously. -/
noncomputable def applyAutomation (progress audioTime : ℝ)
    (a : AutomationDefinition) : List ParamOp :=
  let value := clamp (a.mapValue progress) a.min a.max
  let smoothing := a.smoothingTime.getD 0
  ParamOp.cancel a.param audioTime ::
    (if 0 < smoothing then [ParamOp.linearRamp a.param value (audioTime + smoothing)]
     else [ParamOp.setValue a.param value audioTime])

/-- The `apply` closure of `bindTimelineToAudio`: read the progress once,
compute `audioTime = context.currentTime + lookAheadSeconds`, and run
every automation against it, in list order. -/
noncomputable def applyOnce (view : TimelineProgressView)
    (autos : List AutomationDefinition) (nowTime lookAheadSeconds : ℝ) :
    List ParamOp :=
  autos.flatMap (applyAutomation (getProgress view) (nowTime + lookAheadSeconds))

/-- `TimelineAudioOptions` from `timelineAudioHooks.ts` (the clock is the
ambient audio context, modelled by passing `nowTime` explicitly). -/
structure TimelineAudioOptions where
  lookAheadSeconds : Option ℝ := none

/-- `DEFAULT_LOOKAHEAD` from `timelineAudioHooks.ts`. -/
noncomputable def DEFAULT_LOOKAHEAD : ℝ := 0.02

/-- `bindTimelineToAudio` from `timelineAudioHooks.ts`: intercept the five
`DEFAULT_EVENTS` on the timeline's handler table, then invoke `apply()`
once immediately.  Returns the updated handler table, the teardown data,
and the trace of `AudioParam` operations issued synchronously at bind
time (the timeline fires no lifecycle event during the call, so these are
exactly the operations performed before any lifecycle event can fire). -/
noncomputable def bindTimelineToAudio (table : TimelineTable)
    (view : TimelineProgressView) (autos : List AutomationDefinition)
    (nowTime : ℝ) (options : TimelineAudioOptions) :
    (TimelineTable × List (TimelineEvent × Option TLCallback)) × List ParamOp :=
  let lookAheadSeconds := options.lookAheadSeconds.getD DEFAULT_LOOKAHEAD
  (interceptTimeline table DEFAULT_EVENTS,
   applyOnce view autos nowTime lookAheadSeconds)

end Hooks

/-! ## Environmental crossfader (crossfader module embedded in
`src/docs/release/roadmap.md`) -/

namespace Crossfader

/-- `CrossfadeCurve` from the crossfader module. -/
inductive CrossfadeCurve where
  | linear
  | constantPower
deriving DecidableEq

/-- `InternalState` from the crossfader module; the `GainNode` itself is
opaque and identified by the state id in the operation trace. -/
structure InternalState where
  baseGain : ℝ

/-- `EnvironmentalStateConfig` from the crossfader module.  The opaque
`gain` node is identified by `id` in the trace; `connectToMaster` only
affects graph wiring, which is outside the parameter-operation model. -/
structure EnvironmentalStateConfig where
  id : String
  baseGain : Option ℝ := none

/-- `EnvironmentalMixOptions` from the crossfader module (the audio
context is modelled by passing `currentTime` explicitly). -/
structure EnvironmentalMixOptions where
  headroomDb : Option ℝ := none
  defaultDuration : Option ℝ := none
  curve : Option CrossfadeCurve := none

/-- `TransitionOptions` from the crossfader module.  `fromStateId = none`
covers both an absent field and an explicit `null`, which behave
identically under the source's `??` fallback. -/
structure TransitionOptions where
  duration : Option ℝ := none
  curve : Option CrossfadeCurve := none
  fromStateId : Option String := none

/-- One operation the crossfader issues against the gain `AudioParam` of
a registered state's node, identified by the state id. -/
inductive GainOp where
  | cancel (sid : String) (time : ℝ)
  | setValue (sid : String) (value : ℝ) (time : ℝ)
  | setCurve (sid : String) (points : List ℝ) (startTime duration : ℝ)

/-- The id of the state whose gain parameter the operation addresses. -/
def GainOp.sid : GainOp → String
  | .cancel s _ => s
  | .setValue s _ _ => s
  | .setCurve s _ _ _ => s

/-- Whether the operation is a `cancelScheduledValues` call. -/
def GainOp.isCancelOp : GainOp → Bool
  | .cancel _ _ => true
  | _ => false

/-- The audio-clock time at which the operation is anchored: the cancel
horizon for `cancelScheduledValues`, the scheduled time for
`setValueAtTime`, the curve start for `setValueCurveAtTime`. -/
def GainOp.eventTime : GainOp → ℝ
  | .cancel _ t => t
  | .setValue _ _ t => t
  | .setCurve _ _ t _ => t

/-- The gain values the operation writes (empty for a cancel). -/
def GainOp.values : GainOp → List ℝ
  | .cancel _ _ => []
  | .setValue _ v _ => [v]
  | .setCurve _ pts _ _ => pts

/-- The crossfader's instance state: the insertion-ordered `states` map,
the linear headroom multiplier and the defaults fixed by the constructor,
and the active state pointer. -/
structure CrossfaderState where
  states : List (String × InternalState)
  headroom : ℝ
  defaultDuration : ℝ
  defaultCurve : CrossfadeCurve
  activeStateId : Option String

/-- `dbToLinear` from the crossfader module: `10 ** (db / 20)`. -/
noncomputable def dbToLinear (db : ℝ) : ℝ :=
  (10 : ℝ) ^ (db / 20)

/-- `createCurve` from the crossfader module: `samples` points, point `i`
being `generator(t_i) * scale` with `t_i = i / (samples - 1)` (and
`t = 1` for a single sample). -/
noncomputable def createCurve (samples : ℕ) (generator : ℝ → ℝ) (scale : ℝ) :
    List ℝ :=
  (List.range samples).map (fun (i : ℕ) =>
    generator (if samples = 1 then 1 else (i : ℝ) / ((samples : ℝ) - 1)) * scale)

/-- `getWeights` from the crossfader module, as the pair
(from-weight, to-weight). -/
noncomputable def getWeights (curve : CrossfadeCurve) (t : ℝ) : ℝ × ℝ :=
  match curve with
  | .constantPower => (Real.cos (t * Real.pi / 2), Real.sin (t * Real.pi / 2))
  | .linear => (1 - t, t)

/-- `Map.set` semantics of `this.states.set(id, …)`: replace in place when
the key exists, else append. -/
def setAssoc (l : List (String × InternalState)) (k : String) (v : InternalState) :
    List (String × InternalState) :=
  if l.any (fun p => p.1 == k) then
    l.map (fun p => if p.1 = k then (k, v) else p)
  else l ++ [(k, v)]

/-- `addState` from the crossfader module: clamp the base gain to `≥ 0`
(`Math.max(0, state.baseGain ?? 1)`), register the state, and set its
gain to `0` at the current time. -/
def addState (c : CrossfaderState) (config : EnvironmentalStateConfig)
    (now : ℝ) : CrossfaderState × List GainOp :=
  let baseGain := max 0 (config.baseGain.getD 1)
  ({ c with states := setAssoc c.states config.id ⟨baseGain⟩ },
   [GainOp.setValue config.id 0 now])

/-- The first `this.states.forEach` loop of `transitionTo`: cancel the
scheduled values of every registered state from `startTime`, and zero the
states that are neither the target nor the transition source. -/
def cancelAndZeroOthers (states : List (String × InternalState))
    (stateId : String) (fromId : Option String) (startTime : ℝ) : List GainOp :=
  states.flatMap (fun p =>
    GainOp.cancel p.1 startTime ::
      (if p.1 ≠ stateId ∧ fromId ≠ some p.1 then [GainOp.setValue p.1 0 startTime]
       else []))

/-- The second `this.states.forEach` loop of `transitionTo` (taken in the
`duration > 0` branch): zero every state that is neither the target nor
the transition source. -/
def zeroOthers (states : List (String × InternalState)) (stateId : String)
    (fromId : Option String) (startTime : ℝ) : List GainOp :=
  states.flatMap (fun p =>
    if p.1 ≠ stateId ∧ fromId ≠ some p.1 then [GainOp.setValue p.1 0 startTime]
    else [])

/-- The source's `fromId ? this.states.get(fromId) ?? null : null`: a JS
truthiness test on the id string, under which both `null` (`none`) and
the empty string yield no from-state, and a missing map entry
(`undefined ?? null`) yields `null`. -/
def resolveFromState (states : List (String × InternalState))
    (fromId : Option String) : Option InternalState :=
  match fromId with
  | some fid => if fid = "" then none else states.lookup fid
  | none => none

/-- The `if (fromState && fromId !== stateId)` block of the
`duration > 0` branch of `transitionTo`: schedule the from-weight value
curve on the previous state and zero it at the transition's end time. -/
noncomputable def fromStateCurveOps (fromId : Option String)
    (fromState : Option InternalState) (stateId : String) (headroom : ℝ)
    (sampleCount : ℕ) (curve : CrossfadeCurve) (startTime duration endTime : ℝ) :
    List GainOp :=
  match fromId, fromState with
  | some fid, some fs =>
    if fid ≠ stateId then
      [GainOp.setCurve fid
        (createCurve sampleCount (fun t => (getWeights curve t).1)
          (fs.baseGain * headroom)) startTime duration,
       GainOp.setValue fid 0 endTime]
    else []
  | _, _ => []

/-- The `if (fromState && fromId !== stateId)` block of the immediate
(`duration <= 0`) branch of `transitionTo`: snap the previous state to
zero. -/
noncomputable def fromStateZeroOp (fromId : Option String)
    (fromState : Option InternalState) (stateId : String) (startTime : ℝ) :
    List GainOp :=
  match fromId, fromState with
  | some fid, some _ =>
    if fid ≠ stateId then [GainOp.setValue fid 0 startTime] else []
  | _, _ => []

/-- `transitionTo` from the crossfader module.  Returns the instance state
after the call, the ordered trace of gain-parameter operations the call
issued, and the result: `.ok (startTime, endTime)` on success, `.error`
when the target id is unregistered — in which case the method throws
before touching any state or endpoint, so the state is unchanged and the
trace empty. -/
noncomputable def transitionTo (c : CrossfaderState) (now : ℝ) (stateId : String)
    (opts : TransitionOptions) :
    CrossfaderState × List GainOp × Except String (ℝ × ℝ) :=
  match c.states.lookup stateId with
  | none => (c, [], .error ("Unknown environmental state: " ++ stateId))
  | some target =>
    let duration := opts.duration.getD c.defaultDuration
    let curve := opts.curve.getD c.defaultCurve
    let fromId : Option String := opts.fromStateId.or c.activeStateId
    let fromState := resolveFromState c.states fromId
    let startTime := now
    let endTime := startTime + max 0 duration
    let sampleCount : ℕ :=
      if 0 < duration then max 4 (Int.toNat ⌈duration / 0.02⌉) else 2
    let firstLoop := cancelAndZeroOthers c.states stateId fromId startTime
    if 0 < duration then
      let targetCurve := createCurve sampleCount (fun t => (getWeights curve t).2)
        (target.baseGain * c.headroom)
      ({ c with activeStateId := some stateId },
       firstLoop ++ [GainOp.setCurve stateId targetCurve startTime duration]
         ++ fromStateCurveOps fromId fromState stateId c.headroom sampleCount curve
             startTime duration endTime
         ++ zeroOthers c.states stateId fromId startTime,
       .ok (startTime, endTime))
    else
      ({ c with activeStateId := some stateId },
       firstLoop ++ fromStateZeroOp fromId fromState stateId startTime
         ++ [GainOp.setValue stateId (target.baseGain * c.headroom) startTime],
       .ok (startTime, startTime))

/-- `setImmediate` from the crossfader module:
`transitionTo(stateId, { duration: 0 })`. -/
noncomputable def setImmediate (c : CrossfaderState) (now : ℝ) (stateId : String) :
    CrossfaderState × List GainOp × Except String (ℝ × ℝ) :=
  transitionTo c now stateId ⟨some 0, none, none⟩

/-- The constructor of `EnvironmentalCrossfader`: resolve the options
(`headroomDb ?? 6`, `defaultDuration ?? 3`, `curve ?? "constant-power"`,
`headroom = dbToLinear(-Math.abs(headroomDb))`) and `addState` each
descriptor in order. -/
noncomputable def createEnvironmentalCrossfader
    (configs : List EnvironmentalStateConfig)
    (options : EnvironmentalMixOptions) (now : ℝ) :
    CrossfaderState × List GainOp :=
  let headroomDb := options.headroomDb.getD 6
  let base : CrossfaderState :=
    { states := []
      headroom := dbToLinear (-|headroomDb|)
      defaultDuration := options.defaultDuration.getD 3
      defaultCurve := options.curve.getD .constantPower
      activeStateId := none }
  configs.foldl (fun acc config =>
    let next := addState acc.1 config now
    (next.1, acc.2 ++ next.2)) (base, [])

/-- One step of `settledValue`: a write addressing the parameter replaces
the settled value (the last point for a value curve), anything else keeps
it. -/
def settledStep (sid : String) (acc : Option ℝ) (o : GainOp) : Option ℝ :=
  match o with
  | .setValue s v _ => if s = sid then some v else acc
  | .setCurve s pts _ _ => if s = sid then pts.getLast? else acc
  | .cancel _ _ => acc

/-- The value a state's gain parameter settles at after the trace is
rendered: the value written by the last write operation addressing it. -/
def settledValue (ops : List GainOp) (sid : String) : Option ℝ :=
  ops.foldl (settledStep sid) none

/-- One step of the recorded automation-event log of one state's gain
parameter, following the Web Audio timeline semantics the spec relies on:
an operation on another state's parameter leaves the log alone,
`cancelScheduledValues(t)` removes every event whose scheduled time is
`≥ t`, and each write appends an event.  The tag on an operation records
which call issued it. -/
noncomputable def logStep (sid : String) (log : List (ℕ × GainOp))
    (x : ℕ × GainOp) : List (ℕ × GainOp) :=
  if x.2.sid = sid then
    match x with
    | (_, .cancel _ t) => log.filter (fun y => y.2.eventTime < t)
    | _ => log ++ [x]
  else log

/-- The recorded automation-event log of one state's gain parameter after
a tagged operation trace is applied in order, starting from an empty
timeline. -/
noncomputable def paramLog (ops : List (ℕ × GainOp)) (sid : String) :
    List (ℕ × GainOp) :=
  ops.foldl (logStep sid) []

/-- Tag every operation of a trace with the index of the call that issued
it. -/
def tagged (n : ℕ) (ops : List GainOp) : List (ℕ × GainOp) :=
  ops.map (fun o => (n, o))

/-- Position `i` of a trace (`cancel "" 0` past the end). -/
def opAt (ops : List GainOp) (i : ℕ) : GainOp :=
  ops.getD i (GainOp.cancel "" 0)

/-- The literal reading of claim C1's ordering: within one trace, every
operation preceding a cancel is itself a cancel — i.e. all
`cancelScheduledValues` calls happen before any write. -/
def cancelsBeforeAllWrites (ops : List GainOp) : Prop :=
  ∀ i j : ℕ, i < j → j < ops.length →
    (opAt ops j).isCancelOp = true → (opAt ops i).isCancelOp = true

end Crossfader

/-! ## Spatial synchronization system (`src/systems/synchronization.ts`) -/

namespace Sync

/-- `Vec3` from `synchronization.ts`. -/
def Vec3 : Type := ℝ × ℝ × ℝ

/-- `length` from `synchronization.ts` (`Math.hypot`): the Euclidean
norm. -/
noncomputable def length (v : Vec3) : ℝ :=
  Real.sqrt (v.1 ^ 2 + v.2.1 ^ 2 + v.2.2 ^ 2)

/-- `scale` from `synchronization.ts`. -/
noncomputable def scale (v : Vec3) (scalar : ℝ) : Vec3 :=
  (v.1 * scalar, v.2.1 * scalar, v.2.2 * scalar)

/-- `add` from `synchronization.ts`. -/
noncomputable def add (a b : Vec3) : Vec3 :=
  (a.1 + b.1, a.2.1 + b.2.1, a.2.2 + b.2.2)

/-- `subtract` from `synchronization.ts`. -/
noncomputable def subtract (a b : Vec3) : Vec3 :=
  (a.1 - b.1, a.2.1 - b.2.1, a.2.2 - b.2.2)

/-- `normalize` from `synchronization.ts`. -/
noncomputable def normalize (v : Vec3) : Vec3 :=
  if length v = 0 then ((0 : ℝ), (0 : ℝ), (0 : ℝ)) else scale v (1 / length v)

/-- `smoothValue` from `synchronization.ts`:
`current + (target - current) * alpha`. -/
noncomputable def smoothValue (current target alpha : ℝ) : ℝ :=
  current + (target - current) * alpha

/-- `smoothVec` from `synchronization.ts`. -/
noncomputable def smoothVec (current target : Vec3) (alpha : ℝ) : Vec3 :=
  (smoothValue current.1 target.1 alpha,
   smoothValue current.2.1 target.2.1 alpha,
   smoothValue current.2.2 target.2.2 alpha)

/-- `clampVelocity` from `synchronization.ts`: the raw velocity is
`delta / dt`; it is returned as-is when its magnitude is zero or within
`maxVelocity`, else rescaled to magnitude `maxVelocity` with the
direction preserved; the clamped delta is the velocity integrated back
over `dt`.  Returns `(velocity, clampedDelta)`. -/
noncomputable def clampVelocity (delta : Vec3) (dtSeconds maxVelocity : ℝ) :
    Vec3 × Vec3 :=
  if dtSeconds ≤ 0 then (((0:ℝ), (0:ℝ), (0:ℝ)), ((0:ℝ), (0:ℝ), (0:ℝ)))
  else
    let rawVelocity := scale delta (1 / dtSeconds)
    let speed := length rawVelocity
    if speed = 0 ∨ speed ≤ maxVelocity then (rawVelocity, delta)
    else
      let limitedVelocity := scale rawVelocity (maxVelocity / speed)
      (limitedVelocity, scale limitedVelocity dtSeconds)

/-- `TransformUpdate` from `synchronization.ts`. -/
structure TransformUpdate where
  position : Vec3
  forward : Option Vec3 := none
  up : Option Vec3 := none
  velocity : Option Vec3 := none
  timestamp : Option ℝ := none

/-- `EntityState` from `synchronization.ts`.  The opaque `PannerNode` is
represented by three capability flags: whether it exposes `orientationY`
(`"orientationY" in panner`), the non-standard `upX`/`upY`/`upZ` params,
and a `setVelocity` method. -/
structure EntityState where
  targetPosition : Vec3
  smoothedPosition : Vec3
  targetForward : Option Vec3
  smoothedForward : Option Vec3
  targetUp : Option Vec3
  smoothedUp : Option Vec3
  velocity : Option Vec3
  lastUpdateTime : ℝ
  lastStepTime : ℝ
  smoothingTimeConstant : ℝ
  maxDopplerVelocity : ℝ
  lookAheadSeconds : ℝ
  hasOrientationY : Bool
  hasUpParams : Bool
  hasSetVelocity : Bool

/-- `SynchronizationOptions` from `synchronization.ts`. -/
structure SynchronizationOptions where
  smoothingTimeConstant : Option ℝ := none
  maxDopplerVelocity : Option ℝ := none
  lookAheadSeconds : Option ℝ := none

/-- The defaults `DEFAULT_SMOOTHING`, `DEFAULT_MAX_DOPPLER`,
`DEFAULT_LOOKAHEAD` from `synchronization.ts`. -/
noncomputable def DEFAULT_SMOOTHING : ℝ := 0.12

/-- `DEFAULT_MAX_DOPPLER` from `synchronization.ts`. -/
noncomputable def DEFAULT_MAX_DOPPLER : ℝ := 32

/-- `DEFAULT_LOOKAHEAD_SYNC` — the `DEFAULT_LOOKAHEAD` constant of
`synchronization.ts`. -/
noncomputable def DEFAULT_LOOKAHEAD_SYNC : ℝ := 0.02

/-- `registerEntity` from `synchronization.ts`: resolve the options
(clamping the velocity bound and look-ahead to `≥ 0`) and capture the
panner's current position as both target and smoothed baseline. -/
noncomputable def registerEntity (position : Vec3)
    (options : SynchronizationOptions) (nowMs : ℝ)
    (hasOrientationY hasUpParams hasSetVelocity : Bool) : EntityState :=
  { targetPosition := position
    smoothedPosition := position
    targetForward := none
    smoothedForward := none
    targetUp := none
    smoothedUp := none
    velocity := none
    lastUpdateTime := nowMs
    lastStepTime := nowMs
    smoothingTimeConstant := options.smoothingTimeConstant.getD DEFAULT_SMOOTHING
    maxDopplerVelocity := max 0 (options.maxDopplerVelocity.getD DEFAULT_MAX_DOPPLER)
    lookAheadSeconds := max 0 (options.lookAheadSeconds.getD DEFAULT_LOOKAHEAD_SYNC)
    hasOrientationY := hasOrientationY
    hasUpParams := hasUpParams
    hasSetVelocity := hasSetVelocity }

/-- `updateEntityTransform` from `synchronization.ts` (for a registered
entity; an unknown id is a no-op at the map level).  `nowMs` stands for
`now()` when the update carries no timestamp. -/
noncomputable def updateEntityTransform (s : EntityState)
    (transform : TransformUpdate) (nowMs : ℝ) : EntityState :=
  let timestamp := transform.timestamp.getD nowMs
  let dtSeconds := (timestamp - s.lastUpdateTime) / 1000
  let s1 :=
    if 0 < dtSeconds then
      let delta := subtract transform.position s.targetPosition
      let cv := clampVelocity delta dtSeconds s.maxDopplerVelocity
      { s with velocity := some (transform.velocity.getD cv.1)
               targetPosition := add s.targetPosition cv.2 }
    else
      { s with targetPosition := transform.position
               velocity := match transform.velocity with
                 | some v => some v
                 | none => s.velocity }
  let s2 := match transform.forward with
    | some f =>
      { s1 with targetForward := some (normalize f)
                smoothedForward := match s1.smoothedForward with
                  | some sf => some sf
                  | none => some (normalize f) }
    | none => s1
  let s3 := match transform.up with
    | some u =>
      { s2 with targetUp := some (normalize u)
                smoothedUp := match s2.smoothedUp with
                  | some su => some su
                  | none => some (normalize u) }
    | none => s2
  { s3 with lastUpdateTime := timestamp }

/-- The nine `AudioParam` endpoints of the entity's panner that `step`
can address, plus the legacy `setVelocity` call. -/
inductive PannerParam where
  | positionX
  | positionY
  | positionZ
  | orientationX
  | orientationY
  | orientationZ
  | upX
  | upY
  | upZ
deriving DecidableEq

/-- One operation `step` issues against the entity's panner. -/
inductive PannerOp where
  | cancel (param : PannerParam) (time : ℝ)
  | setValue (param : PannerParam) (value : ℝ) (time : ℝ)
  | setVelocity (v : Vec3)

/-- Whether the operation addresses the given parameter. -/
def PannerOp.onParam (o : PannerOp) (p : PannerParam) : Bool :=
  match o with
  | .cancel q _ => q == p
  | .setValue q _ _ => q == p
  | .setVelocity _ => false

/-- The smoothing factor `alpha` computed by `step`:
`1` when the time constant is `≤ 0`, else `1 − e^(−dt/τ)`. -/
noncomputable def stepAlpha (smoothingTimeConstant dt : ℝ) : ℝ :=
  if smoothingTimeConstant ≤ 0 then 1
  else 1 - Real.exp (-dt / smoothingTimeConstant)

/-- The orientation writes of `step` (no cancellation precedes them in
the source). -/
noncomputable def forwardOps (fwd : Option Vec3) (audioTime : ℝ) : List PannerOp :=
  match fwd with
  | some sf =>
    [.setValue .orientationX sf.1 audioTime,
     .setValue .orientationY sf.2.1 audioTime,
     .setValue .orientationZ sf.2.2 audioTime]
  | none => []

/-- The up-vector writes of `step`, guarded by the presence of the
non-standard `upX`/`upY`/`upZ` params. -/
noncomputable def upWriteOps (upNew : Option Vec3) (hasUpParams : Bool)
    (audioTime : ℝ) : List PannerOp :=
  match upNew with
  | some su =>
    if hasUpParams then
      [.setValue .upX su.1 audioTime,
       .setValue .upY su.2.1 audioTime,
       .setValue .upZ su.2.2 audioTime]
    else []
  | none => []

/-- The `setVelocity` call of `step`, guarded by the presence of the
legacy method. -/
noncomputable def velocityOps (vel : Option Vec3) (hasSetVelocity : Bool) :
    List PannerOp :=
  match vel with
  | some v => if hasSetVelocity then [.setVelocity v] else []
  | none => []

/-- The body of the `entities.forEach` loop of `step` for one entity:
exponential smoothing of position (and tracked orientation vectors)
toward the targets with `alpha`, cancellation of previously scheduled
values on the three position params from `audioTime = audioNow +
lookAheadSeconds` followed by the position writes at `audioTime`, the
orientation and up writes (with no preceding cancellation), the
write-time re-clamp of the stored velocity, and the update of
`lastStepTime`. -/
noncomputable def stepEntity (s : EntityState) (timestamp audioNow : ℝ) :
    EntityState × List PannerOp :=
  let deltaSeconds := (timestamp - s.lastStepTime) / 1000
  let alpha := stepAlpha s.smoothingTimeConstant deltaSeconds
  let smoothedPosition := smoothVec s.smoothedPosition s.targetPosition alpha
  let audioTime := audioNow + s.lookAheadSeconds
  let posOps : List PannerOp :=
    [.cancel .positionX audioTime, .cancel .positionY audioTime,
     .cancel .positionZ audioTime,
     .setValue .positionX smoothedPosition.1 audioTime,
     .setValue .positionY smoothedPosition.2.1 audioTime,
     .setValue .positionZ smoothedPosition.2.2 audioTime]
  let fwd : Option Vec3 := match s.targetForward, s.smoothedForward with
    | some tf, some sf => some (smoothVec sf tf alpha)
    | _, _ => none
  let upNew : Option Vec3 := match s.targetUp, s.smoothedUp with
    | some tu, some su =>
      if s.hasOrientationY then some (smoothVec su tu alpha) else none
    | _, _ => none
  let newVelocity : Option Vec3 := match s.velocity with
    | some v =>
      let speed := length v
      if s.maxDopplerVelocity < speed then
        some (scale v (s.maxDopplerVelocity / speed))
      else some v
    | none => none
  ({ s with
      smoothedPosition := smoothedPosition
      smoothedForward := match fwd with
        | some sf => some sf
        | none => s.smoothedForward
      smoothedUp := match upNew with
        | some su => some su
        | none => s.smoothedUp
      velocity := newVelocity
      lastStepTime := timestamp },
   posOps ++ forwardOps fwd audioTime
     ++ upWriteOps upNew s.hasUpParams audioTime
     ++ velocityOps newVelocity s.hasSetVelocity)

/-- `step(frameTime)` over the whole entity map: apply `stepEntity` to
every registered entity, collecting each entity's operation trace. -/
noncomputable def step (sys : List (String × EntityState))
    (timestamp audioNow : ℝ) :
    List (String × EntityState) × List (String × List PannerOp) :=
  (sys.map (fun p => (p.1, (stepEntity p.2 timestamp audioNow).1)),
   sys.map (fun p => (p.1, (stepEntity p.2 timestamp audioNow).2)))

/-- `n` iterated calls to `step` for one entity, at equally spaced frame
times `t0 + dtMs, t0 + 2·dtMs, …` against a fixed audio clock. -/
noncomputable def stepIter (s : EntityState) (t0 dtMs audioNow : ℝ) :
    ℕ → EntityState
  | 0 => s
  | n + 1 =>
    (stepEntity (stepIter s t0 dtMs audioNow n) (t0 + ((n:ℝ) + 1) * dtMs)
      audioNow).1

/-- The scalar exponential-smoothing recurrence `smoothValue` iterated
`n` times toward a constant target. -/
noncomputable def smoothIter (alpha target s0 : ℝ) : ℕ → ℝ
  | 0 => s0
  | n + 1 => smoothValue (smoothIter alpha target s0 n) target alpha

/-- Position `i` of a panner-operation trace (a dummy `setVelocity` past
the end). -/
def pannerOpAt (ops : List PannerOp) (i : ℕ) : PannerOp :=
  ops.getD i (PannerOp.setVelocity ((0:ℝ), (0:ℝ), (0:ℝ)))

/-- The literal reading of claim C5: in one entity's `step` trace, every
parameter write is preceded by a `cancelScheduledValues` call on that
same parameter at the same (write) time. -/
def cancelPrecedesWrite (ops : List PannerOp) : Prop :=
  ∀ j : ℕ, j < ops.length → ∀ p v t,
    pannerOpAt ops j = PannerOp.setValue p v t →
    ∃ i : ℕ, i < j ∧ pannerOpAt ops i = PannerOp.cancel p t

end Sync

/-! ## Look-ahead motif schedulers (`src/audio/motifs/gentleInquiry.ts`,
`risingHope.ts`, `shimmeringCascade.ts`).

The three motif factories share one scheduler pattern differing only in
numeric constants, captured here by a `MotifParams` record with one
instance per file; the cell-triggering of the gentle-inquiry layer (the
cited source for the voice lifecycle) is embedded in full. -/

namespace Motif

/-- The per-layer scheduler constants: schedule-ahead window, poll period,
base inter-event interval, the `nextEventTime` offset applied on
`start()`, the output-gain ramp target and time of `start()`, the output
ramp time of `stop()`, the per-voice release ramp and oscillator stop
delay of `stop()`, and the minimum inter-event interval. -/
structure MotifParams where
  scheduleAheadTime : ℝ
  lookAheadMs : ℕ
  baseInterval : ℝ
  startOffset : ℝ
  startRampTarget : ℝ
  startRampTime : ℝ
  stopRampTime : ℝ
  voiceReleaseRamp : ℝ
  voiceStopDelay : ℝ
  minInterval : ℝ

/-- The constants of `createGentleInquiryMotif`. -/
noncomputable def gentleInquiryParams : MotifParams :=
  ⟨0.5, 80, 1.35, 0.1, 0.65, 1.6, 1.2, 0.6, 0.8, 0.45⟩

/-- The constants of `createRisingHopeMotif`. -/
noncomputable def risingHopeParams : MotifParams :=
  ⟨0.2, 50, 0.65, 0.05, 0.95, 1.2, 1.5, 0.5, 0.6, 0.18⟩

/-- The constants of `createShimmeringCascadeMotif`. -/
noncomputable def shimmeringCascadeParams : MotifParams :=
  ⟨0.15, 30, 0.33, 0.05, 0.5, 0.9, 0.8, 0.3, 0.4, 0.08⟩

/-- The closure state of one motif instance.  Voices are identified by
the id assigned at creation; `activeVoices` is the `Set` of live
oscillator/gain pairs. -/
structure MotifState where
  isRunning : Bool
  nextEventTime : ℝ
  cellIndex : ℕ
  schedulerId : Option ℕ
  activeVoices : List ℕ

/-- One operation a motif instance issues: against its output gain param,
against a voice's params and oscillator, or against the host's timer
API. -/
inductive MotifOp where
  | outputCancel (t : ℝ)
  | outputSet (v t : ℝ)
  | outputRamp (v t : ℝ)
  | voiceFreqSet (vid : ℕ) (freq t : ℝ)
  | voiceDetuneSet (vid : ℕ) (cents t : ℝ)
  | voiceGainSet (vid : ℕ) (v t : ℝ)
  | voiceGainRamp (vid : ℕ) (v t : ℝ)
  | voiceGainCancel (vid : ℕ) (t : ℝ)
  | oscStart (vid : ℕ) (t : ℝ)
  | oscStop (vid : ℕ) (t : ℝ)
  | voiceDisconnect (vid : ℕ)
  | timerStart (tid : ℕ) (periodMs : ℕ)
  | timerClear (tid : ℕ)

/-- `start()` of a motif instance: an early return when already running;
otherwise reset the pattern cursor and `nextEventTime`, ramp the output
gain up from its current value, and install the periodic poll
(`window.setInterval`, modelled by the fresh timer id `freshTid`). -/
noncomputable def motifStart (p : MotifParams) (s : MotifState)
    (now outputGainValue : ℝ) (freshTid : ℕ) : MotifState × List MotifOp :=
  if s.isRunning then (s, [])
  else
    ({ isRunning := true
       nextEventTime := now + p.startOffset
       cellIndex := 0
       schedulerId := some freshTid
       activeVoices := s.activeVoices },
     [.outputCancel now, .outputSet outputGainValue now,
      .outputRamp p.startRampTarget (now + p.startRampTime),
      .timerStart freshTid p.lookAheadMs])

/-- `stop()` of a motif instance: an early return when not running;
otherwise clear the poll, ramp the output gain down, force-release every
active voice with a short ramp and a deferred oscillator stop, and clear
the active-voice set.  `outputGainValue` and `voiceGainValues` model
reading the current `gain.value` of the output and of each voice. -/
noncomputable def motifStop (p : MotifParams) (s : MotifState)
    (now outputGainValue : ℝ) (voiceGainValues : ℕ → ℝ) :
    MotifState × List MotifOp :=
  if s.isRunning then
    let timerOps : List MotifOp := match s.schedulerId with
      | some tid => [.timerClear tid]
      | none => []
    let outOps : List MotifOp :=
      [.outputCancel now, .outputSet outputGainValue now,
       .outputRamp 0.0001 (now + p.stopRampTime)]
    let voiceOps : List MotifOp := s.activeVoices.flatMap (fun vid =>
      [.voiceGainCancel vid now, .voiceGainSet vid (voiceGainValues vid) now,
       .voiceGainRamp vid 0.0001 (now + p.voiceReleaseRamp),
       .oscStop vid (now + p.voiceStopDelay)])
    ({ isRunning := false
       nextEventTime := s.nextEventTime
       cellIndex := s.cellIndex
       schedulerId := none
       activeVoices := [] },
     timerOps ++ outOps ++ voiceOps)
  else (s, [])

/-- The `onended` completion notification of a voice's oscillator:
disconnect the voice's nodes and delete it from the active set. -/
noncomputable def voiceEnded (s : MotifState) (vid : ℕ) :
    MotifState × List MotifOp :=
  ({ s with activeVoices := s.activeVoices.filter (fun v => v ≠ vid) },
   [.voiceDisconnect vid])

/-- `midiToFrequency` from `motifs/common.ts`:
`440 * 2^((midi − 69)/12)`. -/
noncomputable def midiToFrequency (midi : ℤ) : ℝ :=
  440 * (2:ℝ) ^ (((midi:ℝ) - 69) / 12)

/-- `clamp` from `motifs/common.ts`: `Math.min(max, Math.max(min, v))`. -/
noncomputable def clampRange (value lo hi : ℝ) : ℝ :=
  min hi (max lo value)

/-- `MOTIF_CELLS` from `gentleInquiry.ts`: chord-index lists with an
octave spread. -/
def MOTIF_CELLS : List (List ℕ × ℕ) :=
  [([0], 0), ([2], 0), ([1], 0), ([3], 0), ([0, 2], 1), ([1, 4], 1), ([2], 0)]

/-- `DEFAULT_CHORD` from `gentleInquiry.ts`. -/
def DEFAULT_CHORD : List ℤ := [55, 59, 62, 67, 71]

/-- The resolved options of one gentle-inquiry instance: the rounded
transpose, the clamped density and articulation, and the live chord
provider's current value (raw, sorted inside `triggerCell` as `getChord`
does). -/
structure GentleInquiryConfig where
  transpose : ℤ
  density : ℝ
  articulation : ℝ
  chordInput : List ℤ

/-- The per-index voice creation of `triggerCell` in `gentleInquiry.ts`:
frequency from the chord tone through equal temperament, a small detune
by part index, the attack/release gain envelope anchored at the
precomputed event `time`, and oscillator start/stop. -/
noncomputable def voiceOpsFor (cfg : GentleInquiryConfig) (chord : List ℤ)
    (cell : List ℕ × ℕ) (time : ℝ) (vid partIdx rawIndex : ℕ) :
    List MotifOp :=
  let chordIndex := rawIndex % chord.length
  let octaveShift := rawIndex / chord.length + cell.2
  let targetMidi := chord.getD chordIndex 0 + cfg.transpose + (octaveShift : ℤ) * 12
  let peak := 0.08 - (partIdx : ℝ) * 0.012
  let releaseTime := time + 1.35 * cfg.articulation
  [.voiceFreqSet vid (midiToFrequency targetMidi) time,
   .voiceDetuneSet vid (((partIdx : ℝ) - (cell.1.length : ℝ) / 2) * 4) time,
   .voiceGainSet vid 0 time,
   .voiceGainRamp vid (max 0.02 peak) (time + 0.08),
   .voiceGainRamp vid 0 (max releaseTime (time + 0.4)),
   .oscStart vid time,
   .oscStop vid (releaseTime + 0.8)]

/-- `triggerCell` from `gentleInquiry.ts`: take the live sorted chord
snapshot, pick the next cell of the cyclic pattern table, pass it through
the density-derived probability gate (`rand` models `Math.random()`), and
on success create one voice per cell index (ids `freshVid`,
`freshVid + 1`, …), adding each to the active set; the pattern cursor
advances in every case. -/
noncomputable def triggerCell (cfg : GentleInquiryConfig) (s : MotifState)
    (time rand : ℝ) (freshVid : ℕ) : MotifState × List MotifOp :=
  let chord := cfg.chordInput.mergeSort (fun a b => a ≤ b)
  let cell := MOTIF_CELLS.getD (s.cellIndex % MOTIF_CELLS.length) ([2], 0)
  let probability := clampRange cfg.density 0 1
  if probability < rand then
    ({ s with cellIndex := s.cellIndex + 1 }, [])
  else
    let idxed := cell.1.enum
    let newVids := idxed.map (fun pi => freshVid + pi.1)
    ({ s with
        cellIndex := s.cellIndex + 1
        activeVoices := s.activeVoices ++ newVids },
     idxed.flatMap (fun pi => voiceOpsFor cfg chord cell time (freshVid + pi.1) pi.1 pi.2))

/-- The externally visible events that touch one motif instance's state:
`start()`, `stop()`, one poll-driven `triggerCell`, and one voice's
completion notification. -/
inductive MotifEvent where
  | start (now outputGainValue : ℝ) (freshTid : ℕ)
  | stop (now outputGainValue : ℝ) (voiceGainValues : ℕ → ℝ)
  | cell (time rand : ℝ) (freshVid : ℕ)
  | ended (vid : ℕ)

/-- Apply one event to a motif instance. -/
noncomputable def applyEvent (p : MotifParams) (cfg : GentleInquiryConfig)
    (s : MotifState) : MotifEvent → MotifState × List MotifOp
  | .start now g tid => motifStart p s now g tid
  | .stop now g vg => motifStop p s now g vg
  | .cell t r fv => triggerCell cfg s t r fv
  | .ended vid => voiceEnded s vid

/-- The timer ids created and not yet cleared by a trace of motif
operations. -/
noncomputable def activeTimers (ops : List MotifOp) : List ℕ :=
  ops.foldl (fun acc o =>
    match o with
    | .timerStart tid _ => acc ++ [tid]
    | .timerClear tid => acc.filter (fun x => x ≠ tid)
    | _ => acc) []

end Motif

/-! ## Proofs about the timeline automation binder -/

namespace Hooks

lemma interceptTimeline_teardown_events (tl : TimelineTable)
    (events : List TimelineEvent) :
    ∀ p ∈ (interceptTimeline tl events).2, p.1 ∈ events := by
  induction events generalizing tl with
  | nil => intro p hp; simp [interceptTimeline] at hp
  | cons e rest ih =>
    intro p hp
    simp only [interceptTimeline, List.mem_cons] at hp
    rcases hp with hp | hp
    · simp [hp]
    · exact List.mem_cons_of_mem _ (ih _ _ hp)

lemma runTeardown_update_comm (tds : List (TimelineEvent × Option TLCallback))
    (tl : TimelineTable) (e : TimelineEvent) (v : Option TLCallback)
    (h : ∀ p ∈ tds, p.1 ≠ e) :
    runTeardown (Function.update tl e v) tds = Function.update (runTeardown tl tds) e v := by
  induction tds generalizing tl with
  | nil => rfl
  | cons q rest ih =>
    simp only [runTeardown]
    rw [Function.update_comm (fun hh => h q (List.mem_cons_self q rest) hh.symm)]
    exact ih _ (fun p hp => h p (List.mem_cons_of_mem q hp))

/-- Teardown after interception restores the handler table exactly,
provided the intercepted event list has no duplicates (true of
`DEFAULT_EVENTS`). -/
lemma runTeardown_interceptTimeline (events : List TimelineEvent)
    (hnd : events.Nodup) : ∀ tl : TimelineTable,
    runTeardown (interceptTimeline tl events).1 (interceptTimeline tl events).2 = tl := by
  induction events with
  | nil => intro tl; rfl
  | cons e rest ih =>
    intro tl
    obtain ⟨he, hrest⟩ := List.nodup_cons.mp hnd
    simp only [interceptTimeline, runTeardown]
    rw [runTeardown_update_comm]
    · rw [ih hrest, Function.update_idem, Function.update_eq_self]
    · intro p hp hpe
      exact he (hpe ▸ interceptTimeline_teardown_events _ rest p hp)

lemma default_events_nodup : DEFAULT_EVENTS.Nodup := by decide

/-- C8: for every timeline handler table and every list of automations,
the teardown returned by `bindTimelineToAudio` restores the timeline's
callback for each of the five lifecycle events exactly to the handler
registered before the bind (the whole handler table is restored), and two
nested binders torn down in reverse order of binding restore all original
handlers without loss. -/
theorem bindTimelineToAudio_teardown_restores_handlers
    (table : TimelineTable) (view view2 : TimelineProgressView)
    (autos autos2 : List AutomationDefinition) (t1 t2 : ℝ)
    (o1 o2 : TimelineAudioOptions) :
    runTeardown (bindTimelineToAudio table view autos t1 o1).1.1
        (bindTimelineToAudio table view autos t1 o1).1.2 = table
    ∧ runTeardown
        (runTeardown
          (bindTimelineToAudio (bindTimelineToAudio table view autos t1 o1).1.1
            view2 autos2 t2 o2).1.1
          (bindTimelineToAudio (bindTimelineToAudio table view autos t1 o1).1.1
            view2 autos2 t2 o2).1.2)
        (bindTimelineToAudio table view autos t1 o1).1.2 = table := by
  constructor
  · exact runTeardown_interceptTimeline DEFAULT_EVENTS default_events_nodup table
  · rw [show (bindTimelineToAudio (bindTimelineToAudio table view autos t1 o1).1.1
        view2 autos2 t2 o2).1
        = interceptTimeline (bindTimelineToAudio table view autos t1 o1).1.1 DEFAULT_EVENTS
      from rfl]
    rw [runTeardown_interceptTimeline DEFAULT_EVENTS default_events_nodup]
    exact runTeardown_interceptTimeline DEFAULT_EVENTS default_events_nodup table

lemma clamp_unit_nonneg (v : ℝ) : 0 ≤ clamp v (some 0) (some 1) := by
  simp only [clamp]
  exact le_min (by norm_num) (le_max_left 0 v)

lemma clamp_unit_le_one (v : ℝ) : clamp v (some 0) (some 1) ≤ 1 :=
  min_le_left 1 _

lemma getProgress_nonneg (view : TimelineProgressView) : 0 ≤ getProgress view := by
  unfold getProgress
  rcases view with ⟨p, td, t⟩
  rcases p with _ | pv
  · rcases td with _ | tdv
    · simp
    · rcases t with _ | tv
      · simp
      · simp only
        split
        · exact clamp_unit_nonneg _
        · exact le_refl 0
  · exact clamp_unit_nonneg pv

lemma getProgress_le_one (view : TimelineProgressView) : getProgress view ≤ 1 := by
  unfold getProgress
  rcases view with ⟨p, td, t⟩
  rcases p with _ | pv
  · rcases td with _ | tdv
    · simp
    · rcases t with _ | tv
      · simp
      · simp only
        split
        · exact clamp_unit_le_one _
        · norm_num
  · exact clamp_unit_le_one pv

lemma applyAutomation_targets (pr at' : ℝ) (a : AutomationDefinition) :
    ∀ o ∈ applyAutomation pr at' a, o.target = a.param := by
  intro o ho
  unfold applyAutomation at ho
  rcases List.mem_cons.mp ho with h | h
  · simp [h, ParamOp.target]
  · split at h <;> simp_all [ParamOp.target]

lemma filter_applyAutomation_self (pr at' : ℝ) (a : AutomationDefinition) :
    (applyAutomation pr at' a).filter (fun o => o.target == a.param)
      = applyAutomation pr at' a :=
  List.filter_eq_self.mpr (fun o ho => by
    simp [applyAutomation_targets pr at' a o ho])

lemma filter_applyAutomation_other (pr at' : ℝ) (a : AutomationDefinition)
    (q : ℕ) (h : a.param ≠ q) :
    (applyAutomation pr at' a).filter (fun o => o.target == q) = [] := by
  rw [List.filter_eq_nil_iff]
  intro o ho
  simp [applyAutomation_targets pr at' a o ho, h]

lemma applyOnce_filter_eq (view : TimelineProgressView)
    (autos : List AutomationDefinition) (nowTime la : ℝ)
    (hnd : (autos.map (fun a => a.param)).Nodup)
    (a : AutomationDefinition) (ha : a ∈ autos) :
    (applyOnce view autos nowTime la).filter (fun o => o.target == a.param)
      = applyAutomation (getProgress view) (nowTime + la) a := by
  unfold applyOnce
  rw [List.filter_flatMap]
  induction autos with
  | nil => cases ha
  | cons b rest ih =>
    simp only [List.map_cons, List.nodup_cons, List.mem_map] at hnd
    rcases List.mem_cons.mp ha with rfl | ha'
    · simp only [List.flatMap_cons, filter_applyAutomation_self]
      have hrest : ∀ c ∈ rest,
          (applyAutomation (getProgress view) (nowTime + la) c).filter
            (fun o => o.target == a.param) = [] := by
        intro c hc
        exact filter_applyAutomation_other _ _ c a.param
          (fun hq => hnd.1 ⟨c, hc, hq⟩)
      have : rest.flatMap (fun c =>
          (applyAutomation (getProgress view) (nowTime + la) c).filter
            (fun o => o.target == a.param)) = [] := by
        rw [List.flatMap_eq_nil_iff]
        intro c hc
        exact hrest c hc
      rw [this, List.append_nil]
    · simp only [List.flatMap_cons]
      rw [filter_applyAutomation_other _ _ b a.param
          (fun hq => hnd.1 ⟨a, ha', hq.symm⟩), List.nil_append]
      exact ih hnd.2 ha'

/-- C10: `bindTimelineToAudio` applies every automation exactly once
immediately at bind time (its synchronous operation trace, issued before
any timeline lifecycle event can fire): it reads the progress `p ∈ [0,1]`
(`p = 0` when the timeline exposes neither a finite `progress()` nor a
positive `totalDuration()` together with a finite `time()`), and on each
automation's parameter it first cancels scheduled values from
`now + lookAhead` and then writes `clamp(mapValue p, min, max)` — as an
instantaneous set at `now + lookAhead` when `smoothingTime` is unset or
`≤ 0`, else as a linear ramp ending at `now + lookAhead + smoothingTime`. -/
theorem bindTimelineToAudio_applies_each_automation_once
    (table : TimelineTable) (view : TimelineProgressView)
    (autos : List AutomationDefinition) (nowTime : ℝ)
    (options : TimelineAudioOptions)
    (hnd : (autos.map (fun a => a.param)).Nodup) :
    (0 ≤ getProgress view ∧ getProgress view ≤ 1)
    ∧ (view.progress = none →
        ¬ (∃ td, view.totalDuration = some td ∧ 0 < td ∧ ∃ ct, view.time = some ct) →
        getProgress view = 0)
    ∧ ∀ a ∈ autos,
        ((bindTimelineToAudio table view autos nowTime options).2.filter
            (fun o => o.target == a.param))
          = [ParamOp.cancel a.param
              (nowTime + options.lookAheadSeconds.getD DEFAULT_LOOKAHEAD),
             if 0 < a.smoothingTime.getD 0 then
               ParamOp.linearRamp a.param
                 (clamp (a.mapValue (getProgress view)) a.min a.max)
                 (nowTime + options.lookAheadSeconds.getD DEFAULT_LOOKAHEAD
                   + a.smoothingTime.getD 0)
             else
               ParamOp.setValue a.param
                 (clamp (a.mapValue (getProgress view)) a.min a.max)
                 (nowTime + options.lookAheadSeconds.getD DEFAULT_LOOKAHEAD)] := by
  refine ⟨⟨getProgress_nonneg view, getProgress_le_one view⟩, ?_, ?_⟩
  · intro hp hno
    rcases view with ⟨p, td, t⟩
    simp only at hp
    subst hp
    unfold getProgress
    rcases td with _ | tdv
    · rfl
    · rcases t with _ | tv
      · rfl
      · simp only
        rw [if_neg]
        intro htd
        exact hno ⟨tdv, rfl, htd, tv, rfl⟩
  · intro a ha
    have h := applyOnce_filter_eq view autos nowTime
      (options.lookAheadSeconds.getD DEFAULT_LOOKAHEAD) hnd a ha
    rw [show (bindTimelineToAudio table view autos nowTime options).2
        = applyOnce view autos nowTime (options.lookAheadSeconds.getD DEFAULT_LOOKAHEAD)
      from rfl, h]
    by_cases h0 : 0 < a.smoothingTime.getD 0
    · simp [applyAutomation, h0]
    · simp [applyAutomation, h0]

/-- Witness for C10 at a concrete input: one automation on parameter 0,
timeline exposing progress 1/2. -/
theorem bindTimelineToAudio_applies_each_automation_once_witness :
    (([⟨0, fun x => x, none, none, none⟩] :
        List AutomationDefinition).map (fun a => a.param)).Nodup
    ∧ ((0 ≤ getProgress ⟨some (1/2), none, none⟩
          ∧ getProgress ⟨some (1/2), none, none⟩ ≤ 1)
      ∧ ((⟨some (1/2), none, none⟩ : TimelineProgressView).progress = none →
          ¬ (∃ td, (⟨some (1/2), none, none⟩ : TimelineProgressView).totalDuration
                = some td ∧ 0 < td
              ∧ ∃ ct, (⟨some (1/2), none, none⟩ : TimelineProgressView).time = some ct) →
          getProgress ⟨some (1/2), none, none⟩ = 0)
      ∧ ∀ a ∈ ([⟨0, fun x => x, none, none, none⟩] : List AutomationDefinition),
          ((bindTimelineToAudio (fun _ => none) ⟨some (1/2), none, none⟩
              [⟨0, fun x => x, none, none, none⟩] 0 ⟨none⟩).2.filter
              (fun o => o.target == a.param))
            = [ParamOp.cancel a.param
                (0 + (⟨none⟩ : TimelineAudioOptions).lookAheadSeconds.getD DEFAULT_LOOKAHEAD),
               if 0 < a.smoothingTime.getD 0 then
                 ParamOp.linearRamp a.param
                   (clamp (a.mapValue (getProgress ⟨some (1/2), none, none⟩)) a.min a.max)
                   (0 + (⟨none⟩ : TimelineAudioOptions).lookAheadSeconds.getD DEFAULT_LOOKAHEAD
                     + a.smoothingTime.getD 0)
               else
                 ParamOp.setValue a.param
                   (clamp (a.mapValue (getProgress ⟨some (1/2), none, none⟩)) a.min a.max)
                   (0 + (⟨none⟩ : TimelineAudioOptions).lookAheadSeconds.getD DEFAULT_LOOKAHEAD)]) :=
  ⟨by simp, bindTimelineToAudio_applies_each_automation_once
    (fun _ => none) ⟨some (1/2), none, none⟩ _ 0 ⟨none⟩ (by simp)⟩

end Hooks

/-! ## Proofs about the environmental crossfader -/

namespace Crossfader

/-- C4: transitioning to an unregistered state id throws synchronously
with the "Unknown environmental state" error and leaves the crossfader
unchanged — no gain parameter of any registered state is written or
cancelled (the trace is empty), the set of registered states is
unchanged, and the active state pointer is unchanged (the instance state
is returned as-is). -/
theorem transitionTo_unknown_state_throws_and_preserves
    (c : CrossfaderState) (now : ℝ) (stateId : String)
    (opts : TransitionOptions) (h : c.states.lookup stateId = none) :
    transitionTo c now stateId opts
      = (c, [], .error ("Unknown environmental state: " ++ stateId)) := by
  unfold transitionTo
  rw [h]

/-- Witness for C4: a crossfader with one registered state `"a"`,
transitioning to the unregistered id `"missing"`. -/
theorem transitionTo_unknown_state_throws_and_preserves_witness :
    (CrossfaderState.mk [("a", ⟨1⟩)] 1 3 .constantPower none).states.lookup "missing" = none
    ∧ transitionTo (CrossfaderState.mk [("a", ⟨1⟩)] 1 3 .constantPower none) 0 "missing"
        ⟨none, none, none⟩
        = (CrossfaderState.mk [("a", ⟨1⟩)] 1 3 .constantPower none, [],
           .error ("Unknown environmental state: " ++ "missing")) :=
  ⟨rfl, transitionTo_unknown_state_throws_and_preserves _ 0 "missing" _ rfl⟩

/-- Counterexample to C1 as stated: in the call
`transitionTo "a" {duration: 0}` on a crossfader whose registered states
are `"b"` then `"a"` (no active state), the first `states.forEach` loop
interleaves cancels and writes — it writes `setValueAtTime(0)` on `"b"`
before it calls `cancelScheduledValues` on `"a"` — so it is not the case
that every registered state's gain is cancelled before any new value is
written in the call. -/
theorem transitionTo_not_all_cancels_before_writes :
    ¬ cancelsBeforeAllWrites
        ((transitionTo (CrossfaderState.mk [("b", ⟨1⟩), ("a", ⟨1⟩)] 1 3 .constantPower none)
          0 "a" ⟨some 0, none, none⟩).2.1) := by
  have htr : (transitionTo (CrossfaderState.mk [("b", ⟨1⟩), ("a", ⟨1⟩)] 1 3 .constantPower none)
        0 "a" ⟨some 0, none, none⟩).2.1
      = [GainOp.cancel "b" 0, GainOp.setValue "b" 0 0, GainOp.cancel "a" 0,
         GainOp.setValue "a" 1 0] := by
    have hl : List.lookup "a" [("b", (⟨1⟩ : InternalState)), ("a", ⟨1⟩)] = some ⟨1⟩ := rfl
    simp only [transitionTo, hl]
    norm_num [cancelAndZeroOthers]
    rw [if_pos (And.intro (by decide) (by decide))]
    rfl
  intro h
  rw [htr] at h
  have h2 := h 1 2 (by norm_num) (by norm_num) (by rfl)
  simp [opAt, GainOp.isCancelOp] at h2

lemma lookup_eq_some_mem {l : List (String × InternalState)} {k : String}
    {v : InternalState} (h : l.lookup k = some v) : (k, v) ∈ l := by
  induction l with
  | nil => simp [List.lookup] at h
  | cons q rest ih =>
    obtain ⟨qk, qv⟩ := q
    by_cases hk : k = qk
    · subst hk
      simp [List.lookup] at h
      simp [h]
    · have hb : (k == qk) = false := by simp [hk]
      simp only [List.lookup, hb] at h
      exact List.mem_cons_of_mem _ (ih h)

lemma mem_keys_lookup {l : List (String × InternalState)} {k : String}
    (h : k ∈ l.map Prod.fst) : ∃ v, l.lookup k = some v := by
  induction l with
  | nil => simp at h
  | cons q rest ih =>
    by_cases hk : k = q.1
    · subst hk
      exact ⟨q.2, by simp [List.lookup]⟩
    · have h' : k ∈ rest.map Prod.fst := by
        rcases List.mem_map.mp h with ⟨p, hp, hpk⟩
        rcases List.mem_cons.mp hp with rfl | hp'
        · exact absurd hpk.symm hk
        · exact List.mem_map.mpr ⟨p, hp', hpk⟩
      obtain ⟨v, hv⟩ := ih h'
      have hb : (k == q.1) = false := by simp [hk]
      exact ⟨v, by simp only [List.lookup, hb, hv]⟩

lemma transitionTo_states (c : CrossfaderState) (now : ℝ) (sid : String)
    (opts : TransitionOptions) :
    (transitionTo c now sid opts).1.states = c.states := by
  cases hl : c.states.lookup sid with
  | none => simp [transitionTo, hl]
  | some target =>
    simp only [transitionTo, hl]
    split <;> rfl

lemma cancelAndZeroOthers_sid (states : List (String × InternalState))
    (stateId : String) (fromId : Option String) (startTime : ℝ) :
    ∀ o ∈ cancelAndZeroOthers states stateId fromId startTime,
      o.sid ∈ states.map Prod.fst := by
  intro o ho
  unfold cancelAndZeroOthers at ho
  rw [List.mem_flatMap] at ho
  obtain ⟨p, hp, hop⟩ := ho
  rcases List.mem_cons.mp hop with rfl | h2
  · exact List.mem_map.mpr ⟨p, hp, rfl⟩
  · split at h2
    · rcases List.mem_singleton.mp h2 with rfl
      exact List.mem_map.mpr ⟨p, hp, rfl⟩
    · cases h2

lemma zeroOthers_sid (states : List (String × InternalState))
    (stateId : String) (fromId : Option String) (startTime : ℝ) :
    ∀ o ∈ zeroOthers states stateId fromId startTime,
      o.sid ∈ states.map Prod.fst := by
  intro o ho
  unfold zeroOthers at ho
  rw [List.mem_flatMap] at ho
  obtain ⟨p, hp, hop⟩ := ho
  split at hop
  · rcases List.mem_singleton.mp hop with rfl
    exact List.mem_map.mpr ⟨p, hp, rfl⟩
  · cases hop

lemma fromStateCurveOps_shape (fromId : Option String)
    (fromState : Option InternalState) (stateId : String) (headroom : ℝ)
    (sampleCount : ℕ) (curve : CrossfadeCurve) (startTime duration endTime : ℝ) :
    ∀ o ∈ fromStateCurveOps fromId fromState stateId headroom sampleCount curve
        startTime duration endTime,
      ∃ fid fs, fromId = some fid ∧ fromState = some fs ∧ o.sid = fid
        ∧ o.isCancelOp = false
        ∧ (o = GainOp.setCurve fid
              (createCurve sampleCount (fun t => (getWeights curve t).1)
                (fs.baseGain * headroom)) startTime duration
           ∨ o = GainOp.setValue fid 0 endTime) := by
  intro o ho
  rcases fromId with _ | fid
  · simp [fromStateCurveOps] at ho
  · rcases fromState with _ | fs
    · simp [fromStateCurveOps] at ho
    · simp only [fromStateCurveOps] at ho
      by_cases hne : fid = stateId
      · rw [if_neg (not_not_intro hne)] at ho
        cases ho
      · rw [if_pos hne] at ho
        rcases List.mem_cons.mp ho with rfl | ho2
        · exact ⟨fid, fs, rfl, rfl, rfl, rfl, Or.inl rfl⟩
        · rcases List.mem_singleton.mp ho2 with rfl
          exact ⟨fid, fs, rfl, rfl, rfl, rfl, Or.inr rfl⟩

lemma fromStateZeroOp_shape (fromId : Option String)
    (fromState : Option InternalState) (stateId : String) (startTime : ℝ) :
    ∀ o ∈ fromStateZeroOp fromId fromState stateId startTime,
      ∃ fid fs, fromId = some fid ∧ fromState = some fs ∧ o.sid = fid
        ∧ o = GainOp.setValue fid 0 startTime := by
  intro o ho
  rcases fromId with _ | fid
  · simp [fromStateZeroOp] at ho
  · rcases fromState with _ | fs
    · simp [fromStateZeroOp] at ho
    · simp only [fromStateZeroOp] at ho
      by_cases hne : fid = stateId
      · rw [if_neg (not_not_intro hne)] at ho
        cases ho
      · rw [if_pos hne] at ho
        rcases List.mem_singleton.mp ho with rfl
        exact ⟨fid, fs, rfl, rfl, rfl, rfl⟩

lemma zeroOthers_no_cancel (states : List (String × InternalState))
    (stateId : String) (fromId : Option String) (startTime : ℝ) :
    ∀ o ∈ zeroOthers states stateId fromId startTime, o.isCancelOp = false := by
  intro o ho
  unfold zeroOthers at ho
  rw [List.mem_flatMap] at ho
  obtain ⟨p, hp, hop⟩ := ho
  split at hop
  · rcases List.mem_singleton.mp hop with rfl
    rfl
  · cases hop

lemma filter_sid_eq_nil (l : List GainOp) (p : String)
    (h : ∀ o ∈ l, o.sid ≠ p) : l.filter (fun o => o.sid == p) = [] := by
  rw [List.filter_eq_nil_iff]
  intro o ho
  simp [h o ho]

lemma cancelAndZeroOthers_filter (states : List (String × InternalState))
    (stateId : String) (fromId : Option String) (startTime : ℝ)
    (hnd : (states.map Prod.fst).Nodup) (p : String) (v : InternalState)
    (hp : (p, v) ∈ states) :
    ∃ rest, (cancelAndZeroOthers states stateId fromId startTime).filter
        (fun o => o.sid == p)
      = GainOp.cancel p startTime :: rest
      ∧ ∀ o ∈ rest, o.isCancelOp = false := by
  induction states with
  | nil => cases hp
  | cons q rest ih =>
    simp only [List.map_cons, List.nodup_cons, List.mem_map] at hnd
    have hblock : cancelAndZeroOthers (q :: rest) stateId fromId startTime
        = (GainOp.cancel q.1 startTime ::
            (if q.1 ≠ stateId ∧ fromId ≠ some q.1
             then [GainOp.setValue q.1 0 startTime] else []))
          ++ cancelAndZeroOthers rest stateId fromId startTime := by
      simp [cancelAndZeroOthers]
    rcases List.mem_cons.mp hp with heq | hp'
    · have hq1 : q.1 = p := by rw [← heq]
      rw [hblock, List.filter_append]
      have htail : (cancelAndZeroOthers rest stateId fromId startTime).filter
          (fun o => o.sid == p) = [] := by
        apply filter_sid_eq_nil
        intro o ho hosid
        have := cancelAndZeroOthers_sid rest stateId fromId startTime o ho
        rw [hosid] at this
        rcases List.mem_map.mp this with ⟨r, hr, hrp⟩
        exact hnd.1 ⟨r, hr, by rw [hrp, hq1]⟩
      rw [htail, List.append_nil]
      refine ⟨(if q.1 ≠ stateId ∧ fromId ≠ some q.1
          then [GainOp.setValue q.1 0 startTime] else []).filter
            (fun o => o.sid == p), ?_, ?_⟩
      · rw [List.filter_cons]
        have : (GainOp.cancel q.1 startTime).sid = p := hq1
        simp [GainOp.sid, hq1]
      · intro o ho
        have hmem := List.mem_of_mem_filter ho
        split at hmem
        · rcases List.mem_singleton.mp hmem with rfl
          rfl
        · cases hmem
    · have hq1 : q.1 ≠ p := by
        intro hcon
        exact hnd.1 ⟨(p, v), hp', by rw [hcon]⟩
      rw [hblock, List.filter_append]
      have hhead : ((GainOp.cancel q.1 startTime ::
          (if q.1 ≠ stateId ∧ fromId ≠ some q.1
           then [GainOp.setValue q.1 0 startTime] else [])) :
            List GainOp).filter (fun o => o.sid == p) = [] := by
        apply filter_sid_eq_nil
        intro o ho
        rcases List.mem_cons.mp ho with rfl | ho2
        · exact hq1
        · split at ho2
          · rcases List.mem_singleton.mp ho2 with rfl
            exact hq1
          · cases ho2
      rw [hhead, List.nil_append]
      exact ih hnd.2 hp'

lemma filter_append_head_cancel (l1 l2 : List GainOp) (p : String) (t : ℝ)
    (h1 : ∃ zs, l1.filter (fun o => o.sid == p) = GainOp.cancel p t :: zs
        ∧ ∀ o ∈ zs, o.isCancelOp = false)
    (h2 : ∀ o ∈ l2, o.isCancelOp = false) :
    ∃ rest, (l1 ++ l2).filter (fun o => o.sid == p) = GainOp.cancel p t :: rest
      ∧ ∀ o ∈ rest, o.isCancelOp = false := by
  obtain ⟨zs, hzs, hzsnc⟩ := h1
  refine ⟨zs ++ l2.filter (fun o => o.sid == p), ?_, ?_⟩
  · rw [List.filter_append, hzs, List.cons_append]
  · intro o ho
    rcases List.mem_append.mp ho with ho | ho
    · exact hzsnc o ho
    · exact h2 o (List.mem_of_mem_filter ho)

lemma transOps_filter_head_cancel (c : CrossfaderState) (now : ℝ) (sid : String)
    (opts : TransitionOptions) (target : InternalState)
    (hl : c.states.lookup sid = some target)
    (hnd : (c.states.map Prod.fst).Nodup)
    (p : String) (v : InternalState) (hp : (p, v) ∈ c.states) :
    ∃ rest, ((transitionTo c now sid opts).2.1.filter (fun o => o.sid == p))
      = GainOp.cancel p now :: rest ∧ ∀ o ∈ rest, o.isCancelOp = false := by
  simp only [transitionTo, hl]
  split
  · rw [List.append_assoc, List.append_assoc]
    refine filter_append_head_cancel _ _ p now
      (cancelAndZeroOthers_filter c.states sid _ now hnd p v hp) ?_
    intro o ho
    rcases List.mem_append.mp ho with ho | ho
    · rcases List.mem_singleton.mp ho with rfl
      rfl
    rcases List.mem_append.mp ho with ho | ho
    · obtain ⟨-, -, -, -, -, hnc, -⟩ := fromStateCurveOps_shape _ _ _ _ _ _ _ _ _ o ho
      exact hnc
    · exact zeroOthers_no_cancel _ _ _ _ o ho
  · rw [List.append_assoc]
    refine filter_append_head_cancel _ _ p now
      (cancelAndZeroOthers_filter c.states sid _ now hnd p v hp) ?_
    intro o ho
    rcases List.mem_append.mp ho with ho | ho
    · obtain ⟨fid, fs, -, -, -, hform⟩ := fromStateZeroOp_shape _ _ _ _ o ho
      rw [hform]
      rfl
    · rcases List.mem_singleton.mp ho with rfl
      rfl

lemma resolveFromState_some_eq_some {states : List (String × InternalState)}
    {fid : String} {fs : InternalState}
    (h : resolveFromState states (some fid) = some fs) :
    fid ≠ "" ∧ states.lookup fid = some fs := by
  simp only [resolveFromState] at h
  by_cases he : fid = ""
  · rw [if_pos he] at h
    cases h
  · rw [if_neg he] at h
    exact ⟨he, h⟩

lemma resolveFromState_of_ne_empty (states : List (String × InternalState))
    (fid : String) (he : fid ≠ "") :
    resolveFromState states (some fid) = states.lookup fid := by
  simp only [resolveFromState]
  rw [if_neg he]

lemma transOps_sid (c : CrossfaderState) (now : ℝ) (sid : String)
    (opts : TransitionOptions) (target : InternalState)
    (hl : c.states.lookup sid = some target) :
    ∀ o ∈ (transitionTo c now sid opts).2.1, o.sid ∈ c.states.map Prod.fst := by
  intro o ho
  have hsidmem : sid ∈ c.states.map Prod.fst :=
    List.mem_map.mpr ⟨(sid, target), lookup_eq_some_mem hl, rfl⟩
  simp only [transitionTo, hl] at ho
  split at ho
  · simp only [List.append_assoc, List.mem_append] at ho
    rcases ho with ho | ho | ho | ho
    · exact cancelAndZeroOthers_sid _ _ _ _ o ho
    · rcases List.mem_singleton.mp ho with rfl
      exact hsidmem
    · obtain ⟨fid, fs, hfid, hfs, hsid, -, -⟩ := fromStateCurveOps_shape _ _ _ _ _ _ _ _ _ o ho
      rw [hfid] at hfs
      obtain ⟨-, hlf⟩ := resolveFromState_some_eq_some hfs
      rw [hsid]
      exact List.mem_map.mpr ⟨(fid, fs), lookup_eq_some_mem hlf, rfl⟩
    · exact zeroOthers_sid _ _ _ _ o ho
  · simp only [List.append_assoc, List.mem_append] at ho
    rcases ho with ho | ho | ho
    · exact cancelAndZeroOthers_sid _ _ _ _ o ho
    · obtain ⟨fid, fs, hfid, hfs, hsid, -⟩ := fromStateZeroOp_shape _ _ _ _ o ho
      rw [hfid] at hfs
      obtain ⟨-, hlf⟩ := resolveFromState_some_eq_some hfs
      rw [hsid]
      exact List.mem_map.mpr ⟨(fid, fs), lookup_eq_some_mem hlf, rfl⟩
    · rcases List.mem_singleton.mp ho with rfl
      exact hsidmem

lemma logStep_skip (sid : String) (log : List (ℕ × GainOp)) (x : ℕ × GainOp)
    (h : x.2.sid ≠ sid) : logStep sid log x = log := by
  unfold logStep
  rw [if_neg h]

lemma foldl_logStep_filter (sid : String) (xs : List (ℕ × GainOp)) :
    ∀ L, xs.foldl (logStep sid) L
      = (xs.filter (fun y => y.2.sid == sid)).foldl (logStep sid) L := by
  induction xs with
  | nil => intro L; rfl
  | cons x rest ih =>
    intro L
    by_cases hx : x.2.sid = sid
    · rw [List.foldl_cons, List.filter_cons_of_pos (by simp [hx]), List.foldl_cons]
      exact ih _
    · rw [List.foldl_cons, logStep_skip _ _ _ hx,
        List.filter_cons_of_neg (by simp [hx])]
      exact ih _

lemma logStep_preserves_bounded (sid : String) (t2 : ℝ)
    (L : List (ℕ × GainOp)) (x : ℕ × GainOp) (hx : x.1 ≠ 0)
    (hL : ∀ y ∈ L, y.1 = 0 → y.2.eventTime < t2) :
    ∀ y ∈ logStep sid L x, y.1 = 0 → y.2.eventTime < t2 := by
  rcases x with ⟨n, op⟩
  by_cases hs : op.sid = sid
  · cases op with
    | cancel s t =>
      intro y hy
      simp only [logStep, if_pos hs] at hy
      exact hL y (List.mem_of_mem_filter hy)
    | setValue s v t =>
      intro y hy
      simp only [logStep, if_pos hs] at hy
      rcases List.mem_append.mp hy with hy | hy
      · exact hL y hy
      · rcases List.mem_singleton.mp hy with rfl
        intro h0
        exact absurd h0 hx
    | setCurve s pts t d =>
      intro y hy
      simp only [logStep, if_pos hs] at hy
      rcases List.mem_append.mp hy with hy | hy
      · exact hL y hy
      · rcases List.mem_singleton.mp hy with rfl
        intro h0
        exact absurd h0 hx
  · intro y hy
    rw [logStep_skip _ _ _ hs] at hy
    exact hL y hy

lemma foldl_logStep_preserves_bounded (sid : String) (t2 : ℝ)
    (xs : List (ℕ × GainOp)) (hxs : ∀ x ∈ xs, x.1 ≠ 0) :
    ∀ L, (∀ y ∈ L, y.1 = 0 → y.2.eventTime < t2) →
      ∀ y ∈ xs.foldl (logStep sid) L, y.1 = 0 → y.2.eventTime < t2 := by
  induction xs with
  | nil => intro L hL; exact hL
  | cons x rest ih =>
    intro L hL
    rw [List.foldl_cons]
    exact ih (fun z hz => hxs z (List.mem_cons_of_mem x hz)) _
      (logStep_preserves_bounded sid t2 L x (hxs x (List.mem_cons_self x rest)) hL)

lemma logStep_cancel_bounded (sid : String) (L : List (ℕ × GainOp)) (n : ℕ)
    (t : ℝ) :
    ∀ y ∈ logStep sid L (n, GainOp.cancel sid t), y.1 = 0 → y.2.eventTime < t := by
  intro y hy _
  simp only [logStep, if_pos (show (GainOp.cancel sid t).sid = sid from rfl)] at hy
  have := (List.mem_filter.mp hy).2
  simpa using this

lemma tagged_filter_comm (n : ℕ) (ops : List GainOp) (sid : String) :
    (tagged n ops).filter (fun y => y.2.sid == sid)
      = tagged n (ops.filter (fun o => o.sid == sid)) := by
  unfold tagged
  rw [List.filter_map]
  rfl

lemma tagged_tag (n : ℕ) (ops : List GainOp) : ∀ x ∈ tagged n ops, x.1 = n := by
  intro x hx
  rcases List.mem_map.mp hx with ⟨o, -, rfl⟩
  rfl

/-- C1 (amended): `transitionTo` calls `cancelScheduledValues(startTime)`
on the gain parameter of every registered state, and on each individual
gain parameter the cancel precedes every value or value-curve write of
that call (the per-parameter trace is the cancel followed by writes
only); consequently, after `transitionTo(A)` followed by `transitionTo(B)`
before A's duration elapses, no automation event written by A's
transition remains scheduled at or after B's start time on any registered
state's endpoint. -/
theorem transitionTo_cancels_endpoint_before_writes_reentrant
    (c : CrossfaderState) (hnd : (c.states.map Prod.fst).Nodup)
    (t1 t2 : ℝ) (sidA sidB : String) (optsA optsB : TransitionOptions)
    (tA tB : InternalState)
    (hA : c.states.lookup sidA = some tA)
    (hB : c.states.lookup sidB = some tB)
    (h12 : t1 ≤ t2)
    (h2 : t2 < t1 + max 0 (optsA.duration.getD c.defaultDuration)) :
    (∀ p v, (p, v) ∈ c.states →
      ∃ rest, ((transitionTo (transitionTo c t1 sidA optsA).1 t2 sidB optsB).2.1.filter
          (fun o => o.sid == p))
        = GainOp.cancel p t2 :: rest ∧ ∀ o ∈ rest, o.isCancelOp = false)
    ∧ ∀ sid : String, ∀ y ∈ paramLog
        (tagged 0 (transitionTo c t1 sidA optsA).2.1
          ++ tagged 1 (transitionTo (transitionTo c t1 sidA optsA).1 t2 sidB optsB).2.1)
        sid,
        y.1 = 0 → y.2.eventTime < t2 := by
  have hst : (transitionTo c t1 sidA optsA).1.states = c.states :=
    transitionTo_states c t1 sidA optsA
  have hB1 : (transitionTo c t1 sidA optsA).1.states.lookup sidB = some tB := by
    rw [hst]
    exact hB
  have hnd1 : ((transitionTo c t1 sidA optsA).1.states.map Prod.fst).Nodup := by
    rw [hst]
    exact hnd
  constructor
  · intro p v hp
    exact transOps_filter_head_cancel _ t2 sidB optsB tB hB1 hnd1 p v (hst ▸ hp)
  · intro sid y hy
    unfold paramLog at hy
    rw [List.foldl_append] at hy
    by_cases hmem : sid ∈ c.states.map Prod.fst
    · rcases List.mem_map.mp hmem with ⟨⟨p, v⟩, hpv, hps⟩
      obtain ⟨rest, hfilt, hrest⟩ :=
        transOps_filter_head_cancel _ t2 sidB optsB tB hB1 hnd1 p v (hst ▸ hpv)
      rw [foldl_logStep_filter sid, tagged_filter_comm] at hy
      have hps' : p = sid := hps
      rw [hps'] at hfilt
      rw [hfilt] at hy
      simp only [tagged, List.map_cons, List.foldl_cons] at hy
      refine foldl_logStep_preserves_bounded sid t2 _ ?_ _ ?_ y hy
      · intro x hx
        rw [tagged_tag 1 _ x hx]
        exact one_ne_zero
      · exact logStep_cancel_bounded sid _ 1 t2
    · have hAf : (tagged 0 (transitionTo c t1 sidA optsA).2.1).filter
          (fun z => z.2.sid == sid) = [] := by
        rw [tagged_filter_comm]
        rw [filter_sid_eq_nil]
        · rfl
        · intro o ho hsid
          exact hmem (hsid ▸ transOps_sid c t1 sidA optsA tA hA o ho)
      have hBf : (tagged 1 (transitionTo (transitionTo c t1 sidA optsA).1 t2
          sidB optsB).2.1).filter (fun z => z.2.sid == sid) = [] := by
        rw [tagged_filter_comm]
        rw [filter_sid_eq_nil]
        · rfl
        · intro o ho hsid
          apply hmem
          rw [← hst]
          exact hsid ▸ transOps_sid _ t2 sidB optsB tB hB1 o ho
      rw [foldl_logStep_filter sid, hBf] at hy
      rw [foldl_logStep_filter sid (tagged 0 (transitionTo c t1 sidA optsA).2.1),
        hAf] at hy
      simp at hy

/-- Witness for the amended C1 at a concrete input: two registered states,
`transitionTo "a"` over 3 seconds at time 0, then `transitionTo "b"` at
time 1. -/
theorem transitionTo_cancels_endpoint_before_writes_reentrant_witness :
    ((([("a", (⟨3/4⟩ : InternalState)), ("b", ⟨1/2⟩)] :
        List (String × InternalState)).map Prod.fst).Nodup
      ∧ List.lookup "a" [("a", (⟨3/4⟩ : InternalState)), ("b", ⟨1/2⟩)] = some ⟨3/4⟩
      ∧ List.lookup "b" [("a", (⟨3/4⟩ : InternalState)), ("b", ⟨1/2⟩)] = some ⟨1/2⟩
      ∧ (0:ℝ) ≤ 1
      ∧ (1:ℝ) < 0 + max 0 ((some (3:ℝ)).getD
          (CrossfaderState.mk [("a", ⟨3/4⟩), ("b", ⟨1/2⟩)] 1 3 .constantPower none).defaultDuration))
    ∧ ((∀ p v, (p, v) ∈ (CrossfaderState.mk [("a", ⟨3/4⟩), ("b", ⟨1/2⟩)] 1 3
          .constantPower none).states →
        ∃ rest, ((transitionTo (transitionTo (CrossfaderState.mk [("a", ⟨3/4⟩), ("b", ⟨1/2⟩)]
            1 3 .constantPower none) 0 "a" ⟨some 3, none, none⟩).1 1 "b"
            ⟨none, none, none⟩).2.1.filter (fun o => o.sid == p))
          = GainOp.cancel p 1 :: rest ∧ ∀ o ∈ rest, o.isCancelOp = false)
      ∧ ∀ sid : String, ∀ y ∈ paramLog
          (tagged 0 (transitionTo (CrossfaderState.mk [("a", ⟨3/4⟩), ("b", ⟨1/2⟩)] 1 3
              .constantPower none) 0 "a" ⟨some 3, none, none⟩).2.1
            ++ tagged 1 (transitionTo (transitionTo (CrossfaderState.mk
              [("a", ⟨3/4⟩), ("b", ⟨1/2⟩)] 1 3 .constantPower none) 0 "a"
              ⟨some 3, none, none⟩).1 1 "b" ⟨none, none, none⟩).2.1) sid,
          y.1 = 0 → y.2.eventTime < 1) :=
  ⟨⟨by decide, rfl, rfl, by norm_num, by
      rw [show ((some (3:ℝ)).getD (CrossfaderState.mk [("a", ⟨3/4⟩), ("b", ⟨1/2⟩)]
        1 3 .constantPower none).defaultDuration) = 3 from rfl,
        max_eq_right (by norm_num : (0:ℝ) ≤ 3)]
      norm_num⟩,
   transitionTo_cancels_endpoint_before_writes_reentrant
    (CrossfaderState.mk [("a", ⟨3/4⟩), ("b", ⟨1/2⟩)] 1 3 .constantPower none)
    (by decide) 0 1 "a" "b" ⟨some 3, none, none⟩ ⟨none, none, none⟩ ⟨3/4⟩ ⟨1/2⟩
    rfl rfl (by norm_num)
    (by
      rw [show ((some (3:ℝ)).getD (CrossfaderState.mk [("a", ⟨3/4⟩), ("b", ⟨1/2⟩)]
        1 3 .constantPower none).defaultDuration) = 3 from rfl,
        max_eq_right (by norm_num : (0:ℝ) ≤ 3)]
      norm_num)⟩

lemma getWeights_mem_unit (curve : CrossfadeCurve) (t : ℝ) (h0 : 0 ≤ t)
    (h1 : t ≤ 1) :
    (0 ≤ (getWeights curve t).1 ∧ (getWeights curve t).1 ≤ 1)
    ∧ (0 ≤ (getWeights curve t).2 ∧ (getWeights curve t).2 ≤ 1) := by
  have hpi := Real.pi_pos
  cases curve with
  | linear =>
    simp only [getWeights]
    exact ⟨⟨by linarith, by linarith⟩, h0, h1⟩
  | constantPower =>
    simp only [getWeights]
    have harg0 : 0 ≤ t * Real.pi / 2 := by positivity
    have harg1 : t * Real.pi / 2 ≤ Real.pi / 2 := by nlinarith
    refine ⟨⟨?_, Real.cos_le_one _⟩, ?_, Real.sin_le_one _⟩
    · exact Real.cos_nonneg_of_mem_Icc ⟨by linarith, harg1⟩
    · exact Real.sin_nonneg_of_nonneg_of_le_pi harg0 (by linarith)

lemma createCurve_mem (n : ℕ) (gen : ℝ → ℝ) (scale : ℝ) :
    ∀ x ∈ createCurve n gen scale, ∃ t, 0 ≤ t ∧ t ≤ 1 ∧ x = gen t * scale := by
  intro x hx
  unfold createCurve at hx
  rcases List.mem_map.mp hx with ⟨i, hi, rfl⟩
  by_cases h1 : n = 1
  · exact ⟨1, by norm_num, by norm_num, by simp [h1]⟩
  · have hn0 : n ≠ 0 := by
      intro h0
      rw [h0] at hi
      simp at hi
    have hn2 : 2 ≤ n := by omega
    have hpos : (0:ℝ) < (n:ℝ) - 1 := by
      have : (2:ℝ) ≤ (n:ℝ) := by exact_mod_cast hn2
      linarith
    refine ⟨(i:ℝ) / ((n:ℝ) - 1), ?_, ?_, by simp [h1]⟩
    · exact div_nonneg (by positivity) hpos.le
    · rw [div_le_one hpos]
      have hin : i < n := List.mem_range.mp hi
      have hin' : ((i:ℝ) + 1) ≤ (n:ℝ) := by
        have : (i:ℕ) + 1 ≤ n := hin
        exact_mod_cast this
      linarith

lemma dbToLinear_nonneg (db : ℝ) : 0 ≤ dbToLinear db :=
  Real.rpow_nonneg (by norm_num) _

lemma weight_scale_bound (w b hr : ℝ) (hw0 : 0 ≤ w) (hw1 : w ≤ 1) (hb : 0 ≤ b)
    (hh : 0 ≤ hr) : 0 ≤ w * (b * hr) ∧ w * (b * hr) ≤ b * hr :=
  ⟨mul_nonneg hw0 (mul_nonneg hb hh),
   mul_le_of_le_one_left (mul_nonneg hb hh) hw1⟩

lemma foldl_addState_headroom (cfgs : List EnvironmentalStateConfig) (now : ℝ) :
    ∀ acc : CrossfaderState × List GainOp,
      (cfgs.foldl (fun acc config =>
        let next := addState acc.1 config now
        (next.1, acc.2 ++ next.2)) acc).1.headroom = acc.1.headroom := by
  induction cfgs with
  | nil => intro acc; rfl
  | cons q rest ih =>
    intro acc
    rw [List.foldl_cons]
    exact ih _

lemma createEnvironmentalCrossfader_headroom
    (cfgs : List EnvironmentalStateConfig) (options : EnvironmentalMixOptions)
    (now : ℝ) :
    (createEnvironmentalCrossfader cfgs options now).1.headroom
      = dbToLinear (-|options.headroomDb.getD 6|) := by
  unfold createEnvironmentalCrossfader
  exact foldl_addState_headroom cfgs now _

lemma rpow_three_tenths_bounds :
    (1.995:ℝ) < (10:ℝ) ^ ((3:ℝ)/10) ∧ (10:ℝ) ^ ((3:ℝ)/10) < 1.996 := by
  have hy0 : (0:ℝ) < (10:ℝ) ^ ((3:ℝ)/10) := Real.rpow_pos_of_pos (by norm_num) _
  have hy10 : ((10:ℝ) ^ ((3:ℝ)/10)) ^ (10:ℕ) = 1000 := by
    rw [← Real.rpow_natCast ((10:ℝ) ^ ((3:ℝ)/10)) 10,
      ← Real.rpow_mul (by norm_num : (0:ℝ) ≤ 10),
      show (3:ℝ)/10 * ((10:ℕ):ℝ) = ((3:ℕ):ℝ) by norm_num,
      Real.rpow_natCast]
    norm_num
  constructor
  · refine lt_of_pow_lt_pow_left₀ 10 hy0.le ?_
    rw [hy10]
    norm_num
  · refine lt_of_pow_lt_pow_left₀ 10 (by norm_num : (0:ℝ) ≤ 1.996) ?_
    rw [hy10]
    norm_num

lemma headroom_six_approx :
    |(0.75:ℝ) * dbToLinear (-|(6:ℝ)|) - 0.3758| < 1/1000 := by
  obtain ⟨hlo, hhi⟩ := rpow_three_tenths_bounds
  have hy0 : (0:ℝ) < (10:ℝ) ^ ((3:ℝ)/10) := Real.rpow_pos_of_pos (by norm_num) _
  have hval : dbToLinear (-|(6:ℝ)|) = ((10:ℝ) ^ ((3:ℝ)/10))⁻¹ := by
    unfold dbToLinear
    rw [show (-|(6:ℝ)|)/20 = -((3:ℝ)/10) by norm_num,
      Real.rpow_neg (by norm_num : (0:ℝ) ≤ 10)]
  rw [hval, abs_sub_lt_iff]
  have h1 : ((10:ℝ) ^ ((3:ℝ)/10))⁻¹ < 1.995⁻¹ := inv_strictAnti₀ (by norm_num) hlo
  have h2 : (1.996:ℝ)⁻¹ < ((10:ℝ) ^ ((3:ℝ)/10))⁻¹ := inv_strictAnti₀ hy0 hhi
  constructor <;> nlinarith

lemma settledStep_skip (sid : String) (acc : Option ℝ) (o : GainOp)
    (h : o.sid ≠ sid) : settledStep sid acc o = acc := by
  cases o with
  | cancel s t => rfl
  | setValue s v t =>
    have hs : s ≠ sid := h
    simp only [settledStep, if_neg hs]
  | setCurve s pts t d =>
    have hs : s ≠ sid := h
    simp only [settledStep, if_neg hs]

lemma settledFold_keep_zero (p : String) (xs : List GainOp)
    (hall : ∀ o ∈ xs, o.sid = p →
      o.isCancelOp = true ∨ ∃ t, o = GainOp.setValue p 0 t) :
    xs.foldl (settledStep p) (some 0) = some 0 := by
  induction xs with
  | nil => rfl
  | cons o rest ih =>
    rw [List.foldl_cons]
    have hrest := fun z hz => hall z (List.mem_cons_of_mem o hz)
    by_cases hs : o.sid = p
    · rcases hall o (List.mem_cons_self o rest) hs with hc | ⟨t, rfl⟩
      · cases o with
        | cancel s t' => rw [show settledStep p (some 0) (GainOp.cancel s t') = some 0 from rfl]; exact ih hrest
        | setValue s v t' => simp [GainOp.isCancelOp] at hc
        | setCurve s pts t' d => simp [GainOp.isCancelOp] at hc
      · rw [show settledStep p (some 0) (GainOp.setValue p 0 t) = some 0 by
          simp [settledStep]]
        exact ih hrest
    · rw [settledStep_skip p _ o hs]
      exact ih hrest

lemma settledFold_all_zero (p : String) (xs : List GainOp)
    (hall : ∀ o ∈ xs, o.sid = p →
      o.isCancelOp = true ∨ ∃ t, o = GainOp.setValue p 0 t)
    (hex : ∃ o ∈ xs, o.sid = p ∧ o.isCancelOp = false) :
    ∀ acc, xs.foldl (settledStep p) acc = some 0 := by
  induction xs with
  | nil => rcases hex with ⟨o, ho, -⟩; cases ho
  | cons o rest ih =>
    intro acc
    rw [List.foldl_cons]
    have hrest := fun z hz => hall z (List.mem_cons_of_mem o hz)
    by_cases hs : o.sid = p
    · rcases hall o (List.mem_cons_self o rest) hs with hc | ⟨t, rfl⟩
      · have hex' : ∃ z ∈ rest, z.sid = p ∧ z.isCancelOp = false := by
          rcases hex with ⟨z, hz, hzp, hznc⟩
          rcases List.mem_cons.mp hz with rfl | hz'
          · rw [hc] at hznc; cases hznc
          · exact ⟨z, hz', hzp, hznc⟩
        exact ih hrest hex' _
      · rw [show settledStep p acc (GainOp.setValue p 0 t) = some 0 by
          simp [settledStep]]
        exact settledFold_keep_zero p rest hrest
    · rw [settledStep_skip p _ o hs]
      have hex' : ∃ z ∈ rest, z.sid = p ∧ z.isCancelOp = false := by
        rcases hex with ⟨z, hz, hzp, hznc⟩
        rcases List.mem_cons.mp hz with rfl | hz'
        · exact absurd hzp hs
        · exact ⟨z, hz', hzp, hznc⟩
      exact ih hrest hex' _

lemma settledValue_append_last (xs : List GainOp) (s : String) (v t : ℝ) :
    settledValue (xs ++ [GainOp.setValue s v t]) s = some v := by
  unfold settledValue
  rw [List.foldl_append]
  simp [settledStep]

lemma settledValue_append_other (xs : List GainOp) (p s : String) (hne : s ≠ p)
    (v t : ℝ) :
    settledValue (xs ++ [GainOp.setValue s v t]) p = settledValue xs p := by
  unfold settledValue
  rw [List.foldl_append]
  rw [List.foldl_cons, List.foldl_nil, settledStep_skip p _ _ (by exact hne)]

lemma cancelAndZeroOthers_shape (states : List (String × InternalState))
    (stateId : String) (fromId : Option String) (startTime : ℝ) :
    ∀ o ∈ cancelAndZeroOthers states stateId fromId startTime,
      (∃ p, o = GainOp.cancel p startTime)
      ∨ (∃ p, o = GainOp.setValue p 0 startTime) := by
  intro o ho
  unfold cancelAndZeroOthers at ho
  rw [List.mem_flatMap] at ho
  obtain ⟨p, hp, hop⟩ := ho
  rcases List.mem_cons.mp hop with rfl | h2
  · exact Or.inl ⟨p.1, rfl⟩
  · split at h2
    · rcases List.mem_singleton.mp h2 with rfl
      exact Or.inr ⟨p.1, rfl⟩
    · cases h2

lemma zeroOthers_shape (states : List (String × InternalState))
    (stateId : String) (fromId : Option String) (startTime : ℝ) :
    ∀ o ∈ zeroOthers states stateId fromId startTime,
      ∃ p, o = GainOp.setValue p 0 startTime := by
  intro o ho
  unfold zeroOthers at ho
  rw [List.mem_flatMap] at ho
  obtain ⟨p, hp, hop⟩ := ho
  split at hop
  · rcases List.mem_singleton.mp hop with rfl
    exact ⟨p.1, rfl⟩
  · cases hop

lemma cancelAndZeroOthers_mem_zero (states : List (String × InternalState))
    (stateId : String) (fromId : Option String) (startTime : ℝ)
    (q : String × InternalState) (hq : q ∈ states) (h1 : q.1 ≠ stateId)
    (h2 : fromId ≠ some q.1) :
    GainOp.setValue q.1 0 startTime
      ∈ cancelAndZeroOthers states stateId fromId startTime := by
  unfold cancelAndZeroOthers
  rw [List.mem_flatMap]
  refine ⟨q, hq, ?_⟩
  rw [if_pos ⟨h1, h2⟩]
  exact List.mem_cons_of_mem _ (List.mem_singleton.mpr rfl)

lemma fromStateZeroOp_mem (fid : String) (fs : InternalState) (stateId : String)
    (startTime : ℝ) (hne : fid ≠ stateId) :
    GainOp.setValue fid 0 startTime
      ∈ fromStateZeroOp (some fid) (some fs) stateId startTime := by
  simp only [fromStateZeroOp, if_pos hne]
  exact List.mem_singleton.mpr rfl

lemma transitionTo_values_bounded (c : CrossfaderState) (now : ℝ) (sid : String)
    (opts : TransitionOptions) (target : InternalState)
    (hl : c.states.lookup sid = some target)
    (hb : ∀ q ∈ c.states, 0 ≤ q.2.baseGain) (hh : 0 ≤ c.headroom) :
    ∀ o ∈ (transitionTo c now sid opts).2.1, ∀ x ∈ o.values, ∀ s,
      c.states.lookup o.sid = some s → 0 ≤ x ∧ x ≤ s.baseGain * c.headroom := by
  intro o ho x hx s hs
  have hsb : 0 ≤ s.baseGain := hb _ (lookup_eq_some_mem hs)
  have hshr : 0 ≤ s.baseGain * c.headroom := mul_nonneg hsb hh
  have htb : 0 ≤ target.baseGain := hb _ (lookup_eq_some_mem hl)
  simp only [transitionTo, hl] at ho
  split at ho
  · simp only [List.append_assoc, List.mem_append] at ho
    rcases ho with ho | ho | ho | ho
    · rcases cancelAndZeroOthers_shape _ _ _ _ o ho with ⟨p, rfl⟩ | ⟨p, rfl⟩
      · simp [GainOp.values] at hx
      · simp only [GainOp.values] at hx
        rcases List.mem_singleton.mp hx with rfl
        exact ⟨le_refl 0, hshr⟩
    · rcases List.mem_singleton.mp ho with rfl
      have hst : s = target := by
        have : c.states.lookup sid = some s := hs
        rw [hl] at this
        exact (Option.some.inj this).symm
      simp only [GainOp.values] at hx
      obtain ⟨t, ht0, ht1, rfl⟩ := createCurve_mem _ _ _ x hx
      obtain ⟨-, hw⟩ := getWeights_mem_unit _ t ht0 ht1
      rw [hst]
      exact weight_scale_bound _ _ _ hw.1 hw.2 htb hh
    · obtain ⟨fid, fs, hfid, hfs, hosid, -, hform⟩ :=
        fromStateCurveOps_shape _ _ _ _ _ _ _ _ _ o ho
      rw [hfid] at hfs
      obtain ⟨-, hlf⟩ := resolveFromState_some_eq_some hfs
      have hfsb : 0 ≤ fs.baseGain := hb _ (lookup_eq_some_mem hlf)
      have hsf : s = fs := by
        rw [hosid] at hs
        rw [hlf] at hs
        exact (Option.some.inj hs).symm
      rcases hform with rfl | rfl
      · simp only [GainOp.values] at hx
        obtain ⟨t, ht0, ht1, rfl⟩ := createCurve_mem _ _ _ x hx
        obtain ⟨hw, -⟩ := getWeights_mem_unit _ t ht0 ht1
        rw [hsf]
        exact weight_scale_bound _ _ _ hw.1 hw.2 hfsb hh
      · simp only [GainOp.values] at hx
        rcases List.mem_singleton.mp hx with rfl
        exact ⟨le_refl 0, hshr⟩
    · obtain ⟨p, rfl⟩ := zeroOthers_shape _ _ _ _ o ho
      simp only [GainOp.values] at hx
      rcases List.mem_singleton.mp hx with rfl
      exact ⟨le_refl 0, hshr⟩
  · simp only [List.append_assoc, List.mem_append] at ho
    rcases ho with ho | ho | ho
    · rcases cancelAndZeroOthers_shape _ _ _ _ o ho with ⟨p, rfl⟩ | ⟨p, rfl⟩
      · simp [GainOp.values] at hx
      · simp only [GainOp.values] at hx
        rcases List.mem_singleton.mp hx with rfl
        exact ⟨le_refl 0, hshr⟩
    · obtain ⟨fid, fs, hfid, hfs, hosid, hform⟩ := fromStateZeroOp_shape _ _ _ _ o ho
      rcases hform with rfl
      simp only [GainOp.values] at hx
      rcases List.mem_singleton.mp hx with rfl
      exact ⟨le_refl 0, hshr⟩
    · rcases List.mem_singleton.mp ho with rfl
      have hst : s = target := by
        have : c.states.lookup sid = some s := hs
        rw [hl] at this
        exact (Option.some.inj this).symm
      simp only [GainOp.values] at hx
      rcases List.mem_singleton.mp hx with rfl
      rw [hst]
      exact ⟨mul_nonneg htb hh, le_refl _⟩

lemma transitionTo_immediate_settled (c : CrossfaderState) (now : ℝ)
    (sid : String) (opts : TransitionOptions) (target : InternalState)
    (hl : c.states.lookup sid = some target)
    (hdur : opts.duration.getD c.defaultDuration ≤ 0)
    (hfe : opts.fromStateId.or c.activeStateId ≠ some "") :
    settledValue (transitionTo c now sid opts).2.1 sid
      = some (target.baseGain * c.headroom)
    ∧ ∀ q ∈ c.states, q.1 ≠ sid →
        settledValue (transitionTo c now sid opts).2.1 q.1 = some 0 := by
  have hnlt : ¬ (0 < opts.duration.getD c.defaultDuration) := not_lt.mpr hdur
  constructor
  · simp only [transitionTo, hl, if_neg hnlt]
    exact settledValue_append_last _ sid _ now
  · intro q hq hqs
    simp only [transitionTo, hl, if_neg hnlt]
    rw [settledValue_append_other _ _ _ (Ne.symm hqs) _ now]
    unfold settledValue
    apply settledFold_all_zero
    · intro o ho hosid
      rcases List.mem_append.mp ho with ho | ho
      · rcases cancelAndZeroOthers_shape _ _ _ _ o ho with ⟨p, rfl⟩ | ⟨p, rfl⟩
        · exact Or.inl rfl
        · refine Or.inr ⟨now, ?_⟩
          have : p = q.1 := hosid
          rw [this]
      · obtain ⟨fid, fs, -, -, hosid2, hform⟩ := fromStateZeroOp_shape _ _ _ _ o ho
        rcases hform with rfl
        refine Or.inr ⟨now, ?_⟩
        have : fid = q.1 := hosid
        rw [this]
    · by_cases hfq : (opts.fromStateId.or c.activeStateId) = some q.1
      · obtain ⟨v, hv⟩ := mem_keys_lookup (List.mem_map.mpr ⟨q, hq, rfl⟩)
        have hq1ne : q.1 ≠ "" := by
          intro hcon
          rw [hcon] at hfq
          exact hfe hfq
        refine ⟨GainOp.setValue q.1 0 now, ?_, rfl, rfl⟩
        apply List.mem_append.mpr
        right
        rw [hfq, resolveFromState_of_ne_empty c.states q.1 hq1ne, hv]
        exact fromStateZeroOp_mem q.1 v sid now hqs
      · refine ⟨GainOp.setValue q.1 0 now, ?_, rfl, rfl⟩
        apply List.mem_append.mpr
        left
        exact cancelAndZeroOthers_mem_zero c.states sid _ now q hq hqs hfq

/-- C2 (amended): the headroom multiplier of a crossfader constructed
with `headroomDb = h` equals `10^(−|h|/20)`; every gain value scheduled
by `transitionTo` (hence by `setImmediate`) on a registered state with
base level `b ≥ 0` — zero snaps, linear or constant-power curve points,
and the immediate target write alike — lies in `[0, b × headroom]`, as
does the single zero write of `addState`; after an immediate switch
(`duration ≤ 0`) the target's settled gain is exactly
`baseGain × headroom` and, provided the resolved transition source id
(`fromStateId ?? activeStateId`) is not the empty string, every other
registered state settles at `0` (an empty-string from-state fails the
source's truthiness test, is treated as absent, and retains its prior
gain); and for `h = 6`, `b = 0.75` the settled level is within `10⁻³` of
`0.3758`. -/
theorem crossfader_headroom_invariant
    (cfgs : List EnvironmentalStateConfig) (mix : EnvironmentalMixOptions)
    (now0 h : ℝ) (c : CrossfaderState) (now : ℝ) (sid : String)
    (opts : TransitionOptions) (target : InternalState)
    (hhr : c.headroom = dbToLinear (-|h|))
    (hb : ∀ q ∈ c.states, 0 ≤ q.2.baseGain)
    (hl : c.states.lookup sid = some target) :
    ((createEnvironmentalCrossfader cfgs
        ⟨some h, mix.defaultDuration, mix.curve⟩ now0).1.headroom
      = (10:ℝ) ^ (-|h| / 20))
    ∧ (∀ o ∈ (transitionTo c now sid opts).2.1, ∀ x ∈ o.values, ∀ s,
        c.states.lookup o.sid = some s → 0 ≤ x ∧ x ≤ s.baseGain * c.headroom)
    ∧ (∀ config : EnvironmentalStateConfig, ∀ now1 : ℝ,
        ∀ o ∈ (addState c config now1).2, ∀ x ∈ o.values,
          0 ≤ x ∧ x ≤ (max 0 (config.baseGain.getD 1)) * c.headroom)
    ∧ (opts.duration.getD c.defaultDuration ≤ 0 →
        opts.fromStateId.or c.activeStateId ≠ some "" →
        settledValue (transitionTo c now sid opts).2.1 sid
          = some (target.baseGain * c.headroom)
        ∧ ∀ q ∈ c.states, q.1 ≠ sid →
            settledValue (transitionTo c now sid opts).2.1 q.1 = some 0)
    ∧ |(0.75:ℝ) * dbToLinear (-|(6:ℝ)|) - 0.3758| < 1/1000 := by
  have hh : 0 ≤ c.headroom := by
    rw [hhr]
    exact dbToLinear_nonneg _
  refine ⟨?_, ?_, ?_, ?_, headroom_six_approx⟩
  · rw [createEnvironmentalCrossfader_headroom]
    rfl
  · exact transitionTo_values_bounded c now sid opts target hl hb hh
  · intro config now1 o ho x hx
    rcases List.mem_singleton.mp ho with rfl
    simp only [GainOp.values] at hx
    rcases List.mem_singleton.mp hx with rfl
    exact ⟨le_refl 0, mul_nonneg (le_max_left 0 _) hh⟩
  · intro hdur hfe
    exact transitionTo_immediate_settled c now sid opts target hl hdur hfe

/-- Concrete crossfader used as the C2 witness input: the spec's
end-to-end example, states `"dense-forest"` (base 0.75) and `"clearing"`
(base 0.5), `headroomDb = 6`. -/
noncomputable def exampleCrossfader : CrossfaderState :=
  ⟨[("dense-forest", ⟨0.75⟩), ("clearing", ⟨0.5⟩)],
   dbToLinear (-|(6:ℝ)|), 3, .constantPower, none⟩

/-- Witness for C2 at a concrete input: switching `exampleCrossfader`
immediately to `"dense-forest"`. -/
theorem crossfader_headroom_invariant_witness :
    (exampleCrossfader.headroom = dbToLinear (-|(6:ℝ)|)
      ∧ (∀ q ∈ exampleCrossfader.states, 0 ≤ q.2.baseGain)
      ∧ exampleCrossfader.states.lookup "dense-forest" = some ⟨0.75⟩)
    ∧ (((createEnvironmentalCrossfader [] ⟨some 6, none, none⟩ 0).1.headroom
        = (10:ℝ) ^ (-|(6:ℝ)| / 20))
      ∧ (∀ o ∈ (transitionTo exampleCrossfader 0 "dense-forest"
            ⟨some 0, none, none⟩).2.1, ∀ x ∈ o.values, ∀ s,
          exampleCrossfader.states.lookup o.sid = some s →
            0 ≤ x ∧ x ≤ s.baseGain * exampleCrossfader.headroom)
      ∧ (∀ config : EnvironmentalStateConfig, ∀ now1 : ℝ,
          ∀ o ∈ (addState exampleCrossfader config now1).2, ∀ x ∈ o.values,
            0 ≤ x ∧ x ≤ (max 0 (config.baseGain.getD 1)) * exampleCrossfader.headroom)
      ∧ ((some (0:ℝ)).getD exampleCrossfader.defaultDuration ≤ 0 →
          (⟨some 0, none, none⟩ : TransitionOptions).fromStateId.or
              exampleCrossfader.activeStateId ≠ some "" →
          settledValue (transitionTo exampleCrossfader 0 "dense-forest"
              ⟨some 0, none, none⟩).2.1 "dense-forest"
            = some ((⟨0.75⟩ : InternalState).baseGain * exampleCrossfader.headroom)
          ∧ ∀ q ∈ exampleCrossfader.states, q.1 ≠ "dense-forest" →
              settledValue (transitionTo exampleCrossfader 0 "dense-forest"
                ⟨some 0, none, none⟩).2.1 q.1 = some 0)
      ∧ |(0.75:ℝ) * dbToLinear (-|(6:ℝ)|) - 0.3758| < 1/1000) :=
  ⟨⟨rfl,
    fun q hq => by
      rcases List.mem_cons.mp hq with rfl | hq2
      · norm_num
      · rcases List.mem_singleton.mp hq2 with rfl
        norm_num,
    rfl⟩,
   crossfader_headroom_invariant [] ⟨none, none, none⟩ 0 6 exampleCrossfader 0
    "dense-forest" ⟨some 0, none, none⟩ ⟨0.75⟩ rfl
    (fun q hq => by
      rcases List.mem_cons.mp hq with rfl | hq2
      · norm_num
      · rcases List.mem_singleton.mp hq2 with rfl
        norm_num)
    rfl⟩

/-- Crossfader with a registered empty-string state: the result of
constructing with descriptors `""` (base 3/4) and `"x"` (base 1/2) and
`headroomDb = 0`. -/
noncomputable def c2CounterBase : CrossfaderState :=
  ⟨[("", ⟨3/4⟩), ("x", ⟨1/2⟩)], 1, 3, .constantPower, none⟩

/-- The crossfader after switching `c2CounterBase` immediately to the
registered empty-string state: the active state id is `""`. -/
noncomputable def c2CounterAfterEmpty : CrossfaderState :=
  (transitionTo c2CounterBase 0 "" ⟨some 0, none, none⟩).1

/-- Counterexample to C2 as stated: construct a crossfader with states
`""` (base 3/4) and `"x"` (base 1/2), switch immediately to the
registered empty-string id, then switch immediately to `"x"`.  In the
second call the resolved transition source (`fromStateId ?? activeStateId`)
is the empty string, which fails the source's JS truthiness test
(`fromId ? this.states.get(fromId) ?? null : null`), so the call skips
the `id !== fromId` zeroing in the first loop and has no from-state to
snap to zero: it issues no write on `""` at all.  The state `""` is
registered and distinct from the target, yet its gain does not settle at
`0` after the switch — across the two calls it stays at its previous
level `3/4`, refuting the claim that after an immediate switch every
other registered state's gain equals `0`. -/
theorem transitionTo_immediate_skips_empty_from_state :
    c2CounterBase = (createEnvironmentalCrossfader
        [⟨"", some (3/4)⟩, ⟨"x", some (1/2)⟩] ⟨some 0, none, none⟩ 0).1
    ∧ c2CounterAfterEmpty = (transitionTo c2CounterBase 0 "" ⟨some 0, none, none⟩).1
    ∧ ("", (⟨3/4⟩ : InternalState)) ∈ c2CounterAfterEmpty.states
    ∧ ("" : String) ≠ "x"
    ∧ (some (0:ℝ)).getD c2CounterAfterEmpty.defaultDuration ≤ 0
    ∧ (⟨some 0, none, none⟩ : TransitionOptions).fromStateId.or
        c2CounterAfterEmpty.activeStateId = some ""
    ∧ settledValue (transitionTo c2CounterAfterEmpty 1 "x"
        ⟨some 0, none, none⟩).2.1 "" ≠ some 0
    ∧ settledValue ((transitionTo c2CounterBase 0 "" ⟨some 0, none, none⟩).2.1
        ++ (transitionTo c2CounterAfterEmpty 1 "x" ⟨some 0, none, none⟩).2.1) ""
      = some (3/4) := by
  have hl1 : List.lookup "" [("", (⟨3/4⟩ : InternalState)), ("x", ⟨1/2⟩)]
      = some ⟨3/4⟩ := rfl
  have hl2 : List.lookup "x" [("", (⟨3/4⟩ : InternalState)), ("x", ⟨1/2⟩)]
      = some ⟨1/2⟩ := rfl
  have hc1 : c2CounterAfterEmpty
      = ⟨[("", ⟨3/4⟩), ("x", ⟨1/2⟩)], 1, 3, .constantPower, some ""⟩ := by
    simp only [c2CounterAfterEmpty, c2CounterBase, transitionTo, hl1]
    norm_num
  have ht1 : (transitionTo c2CounterBase 0 "" ⟨some 0, none, none⟩).2.1
      = [GainOp.cancel "" 0, GainOp.cancel "x" 0, GainOp.setValue "x" 0 0,
         GainOp.setValue "" (3/4 * 1) 0] := by
    simp only [c2CounterBase, transitionTo, hl1]
    norm_num [cancelAndZeroOthers, resolveFromState, fromStateZeroOp]
    rw [if_pos (And.intro (by decide) (by decide))]
    rfl
  have ht2 : (transitionTo c2CounterAfterEmpty 1 "x" ⟨some 0, none, none⟩).2.1
      = [GainOp.cancel "" 1, GainOp.cancel "x" 1,
         GainOp.setValue "x" (1/2 * 1) 1] := by
    rw [hc1]
    simp only [transitionTo, hl2]
    norm_num [cancelAndZeroOthers, resolveFromState, fromStateZeroOp]
  have hdb0 : dbToLinear (0 : ℝ) = 1 := by
    simp only [dbToLinear, zero_div, Real.rpow_zero]
  refine ⟨?_, rfl, ?_, by decide, ?_, ?_, ?_, ?_⟩
  · simp only [c2CounterBase, createEnvironmentalCrossfader, List.foldl_cons,
      List.foldl_nil, addState, setAssoc]
    norm_num
    rw [if_neg (show ¬("" : String) = "x" by decide)]
    exact ⟨rfl, hdb0.symm⟩
  · rw [hc1]
    exact List.mem_cons_self _ _
  · rw [hc1]
    norm_num
  · rw [hc1]
    rfl
  · rw [ht2]
    simp [settledValue, settledStep]
  · rw [ht1, ht2]
    simp [settledValue, settledStep]

end Crossfader

/-! ## Proofs about the spatial synchronization system -/

namespace Sync

lemma length_nonneg (v : Vec3) : 0 ≤ length v :=
  Real.sqrt_nonneg _

lemma length_scale (v : Vec3) (c : ℝ) : length (scale v c) = |c| * length v := by
  unfold length scale
  rw [show (v.1 * c) ^ 2 + (v.2.1 * c) ^ 2 + (v.2.2 * c) ^ 2
      = c ^ 2 * (v.1 ^ 2 + v.2.1 ^ 2 + v.2.2 ^ 2) by ring,
    Real.sqrt_mul (sq_nonneg c), Real.sqrt_sq_eq_abs]

lemma clampVelocity_within (delta : Vec3) (dt maxV : ℝ) (hdt : 0 < dt)
    (h : length (scale delta (1 / dt)) ≤ maxV) :
    (clampVelocity delta dt maxV).1 = scale delta (1 / dt) := by
  unfold clampVelocity
  rw [if_neg (not_le.mpr hdt), if_pos (Or.inr h)]

lemma clampVelocity_exceeds (delta : Vec3) (dt maxV : ℝ) (hdt : 0 < dt)
    (hmax : 0 ≤ maxV) (h : maxV < length (scale delta (1 / dt))) :
    length (clampVelocity delta dt maxV).1 = maxV
    ∧ ∃ c : ℝ, 0 ≤ c ∧ (0 < maxV → 0 < c)
        ∧ (clampVelocity delta dt maxV).1 = scale (scale delta (1 / dt)) c := by
  have hspeed : 0 < length (scale delta (1 / dt)) := lt_of_le_of_lt hmax h
  have hcond : ¬ (length (scale delta (1 / dt)) = 0
      ∨ length (scale delta (1 / dt)) ≤ maxV) := by
    rintro (h0 | hle)
    · rw [h0] at hspeed
      exact lt_irrefl 0 hspeed
    · exact absurd h (not_lt.mpr hle)
  unfold clampVelocity
  rw [if_neg (not_le.mpr hdt), if_neg hcond]
  constructor
  · rw [length_scale,
      abs_of_nonneg (div_nonneg hmax (length_nonneg _)),
      div_mul_cancel₀ maxV (ne_of_gt hspeed)]
  · exact ⟨maxV / length (scale delta (1 / dt)),
      div_nonneg hmax (length_nonneg _),
      fun hm => div_pos hm hspeed, rfl⟩

lemma forwardOps_shape (fwd : Option Vec3) (t : ℝ) :
    ∀ o ∈ forwardOps fwd t, ∃ q val,
      (q = PannerParam.orientationX ∨ q = PannerParam.orientationY
        ∨ q = PannerParam.orientationZ)
      ∧ o = PannerOp.setValue q val t := by
  intro o ho
  rcases fwd with _ | sf
  · cases ho
  · simp only [forwardOps] at ho
    rcases List.mem_cons.mp ho with rfl | ho
    · exact ⟨_, _, Or.inl rfl, rfl⟩
    rcases List.mem_cons.mp ho with rfl | ho
    · exact ⟨_, _, Or.inr (Or.inl rfl), rfl⟩
    · rcases List.mem_singleton.mp ho with rfl
      exact ⟨_, _, Or.inr (Or.inr rfl), rfl⟩

lemma upWriteOps_shape (upNew : Option Vec3) (b : Bool) (t : ℝ) :
    ∀ o ∈ upWriteOps upNew b t, ∃ q val,
      (q = PannerParam.upX ∨ q = PannerParam.upY ∨ q = PannerParam.upZ)
      ∧ o = PannerOp.setValue q val t := by
  intro o ho
  rcases upNew with _ | su
  · cases ho
  · simp only [upWriteOps] at ho
    rcases b with _ | _
    · simp at ho
    · simp only [if_pos] at ho
      rcases List.mem_cons.mp ho with rfl | ho
      · exact ⟨_, _, Or.inl rfl, rfl⟩
      rcases List.mem_cons.mp ho with rfl | ho
      · exact ⟨_, _, Or.inr (Or.inl rfl), rfl⟩
      · rcases List.mem_singleton.mp ho with rfl
        exact ⟨_, _, Or.inr (Or.inr rfl), rfl⟩

lemma velocityOps_shape (vel : Option Vec3) (b : Bool) :
    ∀ o ∈ velocityOps vel b, ∃ v, vel = some v ∧ o = PannerOp.setVelocity v := by
  intro o ho
  rcases vel with _ | v
  · cases ho
  · simp only [velocityOps] at ho
    rcases b with _ | _
    · simp at ho
    · simp only [if_pos] at ho
      rcases List.mem_singleton.mp ho with rfl
      exact ⟨v, rfl, rfl⟩

lemma stepEntity_velocity_bounded (s : EntityState) (ts an : ℝ)
    (hmax : 0 ≤ s.maxDopplerVelocity) :
    ∀ v : Vec3, PannerOp.setVelocity v ∈ (stepEntity s ts an).2 →
      length v ≤ s.maxDopplerVelocity := by
  intro v hv
  simp only [stepEntity, List.append_assoc, List.mem_append] at hv
  rcases hv with hv | hv | hv | hv
  · simp at hv
  · obtain ⟨q, val, -, heq⟩ := forwardOps_shape _ _ _ hv
    cases heq
  · obtain ⟨q, val, -, heq⟩ := upWriteOps_shape _ _ _ _ hv
    cases heq
  · obtain ⟨w, hw, heq⟩ := velocityOps_shape _ _ _ hv
    rcases PannerOp.setVelocity.inj heq with rfl
    rcases hsv : s.velocity with _ | u
    · rw [hsv] at hw
      simp at hw
    · rw [hsv] at hw
      simp only at hw
      by_cases hgt : s.maxDopplerVelocity < length u
      · rw [if_pos hgt] at hw
        rcases Option.some.inj hw with rfl
        have hu : 0 < length u := lt_of_le_of_lt hmax hgt
        rw [length_scale,
          abs_of_nonneg (div_nonneg hmax (length_nonneg _)),
          div_mul_cancel₀ _ (ne_of_gt hu)]
      · rw [if_neg hgt] at hw
        rcases Option.some.inj hw with rfl
        exact not_lt.mp hgt

/-- C6: for a transform update with positive elapsed time `dt` and
positional delta `d`, the computed velocity is `d/dt` when `|d/dt|` is
within `maxDopplerVelocity`, and otherwise `d/dt` rescaled to magnitude
exactly `maxDopplerVelocity` with the direction preserved (a nonnegative
multiple, positive when the bound is positive); in particular a delta of
`(100,0,0)` over `0.1 s` with bound `32` yields magnitude exactly `32`;
and the velocity magnitude `step` applies to the entity's endpoint via
`setVelocity` never exceeds the entity's bound. -/
theorem clampVelocity_doppler_clamp (delta : Vec3) (dt maxV : ℝ)
    (hdt : 0 < dt) (hmax : 0 ≤ maxV) :
    (length (scale delta (1 / dt)) ≤ maxV →
      (clampVelocity delta dt maxV).1 = scale delta (1 / dt))
    ∧ (maxV < length (scale delta (1 / dt)) →
        length (clampVelocity delta dt maxV).1 = maxV
        ∧ ∃ c : ℝ, 0 ≤ c ∧ (0 < maxV → 0 < c)
            ∧ (clampVelocity delta dt maxV).1 = scale (scale delta (1 / dt)) c)
    ∧ length (clampVelocity (((100:ℝ), (0:ℝ), (0:ℝ)) : Vec3) 0.1 32).1 = 32
    ∧ (∀ s : EntityState, ∀ ts an : ℝ, 0 ≤ s.maxDopplerVelocity →
        ∀ v : Vec3, PannerOp.setVelocity v ∈ (stepEntity s ts an).2 →
          length v ≤ s.maxDopplerVelocity) := by
  refine ⟨clampVelocity_within delta dt maxV hdt, ?_, ?_, ?_⟩
  · intro h
    exact clampVelocity_exceeds delta dt maxV hdt hmax h
  · have hraw : length (scale (((100:ℝ), (0:ℝ), (0:ℝ)) : Vec3) (1 / (0.1:ℝ)))
        = 1000 := by
      unfold scale length
      norm_num
      rw [show (1000000:ℝ) = 1000 ^ 2 by norm_num, Real.sqrt_sq (by norm_num)]
    have := (clampVelocity_exceeds (((100:ℝ), (0:ℝ), (0:ℝ)) : Vec3) 0.1 32
      (by norm_num) (by norm_num) (by rw [hraw]; norm_num)).1
    exact this
  · intro s ts an hm v hv
    exact stepEntity_velocity_bounded s ts an hm v hv

/-- Witness for C6 at a concrete input: the spec's Doppler-clamp example,
`delta = (100,0,0)`, `dt = 0.1`, `maxDopplerVelocity = 32`. -/
theorem clampVelocity_doppler_clamp_witness :
    ((0:ℝ) < 0.1 ∧ (0:ℝ) ≤ 32)
    ∧ ((length (scale (((100:ℝ), (0:ℝ), (0:ℝ)) : Vec3) (1 / 0.1)) ≤ 32 →
        (clampVelocity (((100:ℝ), (0:ℝ), (0:ℝ)) : Vec3) 0.1 32).1
          = scale (((100:ℝ), (0:ℝ), (0:ℝ)) : Vec3) (1 / 0.1))
      ∧ ((32:ℝ) < length (scale (((100:ℝ), (0:ℝ), (0:ℝ)) : Vec3) (1 / 0.1)) →
          length (clampVelocity (((100:ℝ), (0:ℝ), (0:ℝ)) : Vec3) 0.1 32).1 = 32
          ∧ ∃ c : ℝ, 0 ≤ c ∧ ((0:ℝ) < 32 → 0 < c)
              ∧ (clampVelocity (((100:ℝ), (0:ℝ), (0:ℝ)) : Vec3) 0.1 32).1
                = scale (scale (((100:ℝ), (0:ℝ), (0:ℝ)) : Vec3) (1 / 0.1)) c)
      ∧ length (clampVelocity (((100:ℝ), (0:ℝ), (0:ℝ)) : Vec3) 0.1 32).1 = 32
      ∧ (∀ s : EntityState, ∀ ts an : ℝ, 0 ≤ s.maxDopplerVelocity →
          ∀ v : Vec3, PannerOp.setVelocity v ∈ (stepEntity s ts an).2 →
            length v ≤ s.maxDopplerVelocity)) :=
  ⟨⟨by norm_num, by norm_num⟩,
   clampVelocity_doppler_clamp (((100:ℝ), (0:ℝ), (0:ℝ)) : Vec3) 0.1 32
    (by norm_num) (by norm_num)⟩

lemma stepAlpha_le_one (stc dt : ℝ) : stepAlpha stc dt ≤ 1 := by
  unfold stepAlpha
  split
  · exact le_refl 1
  · have := Real.exp_pos (-dt / stc)
    linarith

lemma smoothValue_error (s t a : ℝ) (ha : a ≤ 1) :
    |smoothValue s t a - t| = |s - t| * (1 - a) := by
  rw [show smoothValue s t a - t = (s - t) * (1 - a) by unfold smoothValue; ring,
    abs_mul, abs_of_nonneg (by linarith : (0:ℝ) ≤ 1 - a)]

lemma smoothIter_error (a t s0 : ℝ) (ha : a ≤ 1) (n : ℕ) :
    |smoothIter a t s0 n - t| = |s0 - t| * (1 - a) ^ n := by
  induction n with
  | zero => simp [smoothIter]
  | succ n ih =>
    rw [show smoothIter a t s0 (n + 1)
        = smoothValue (smoothIter a t s0 n) t a from rfl,
      smoothValue_error _ _ _ ha, ih, pow_succ]
    ring

lemma stepIter_state (s : EntityState) (t0 dtMs audioNow : ℝ)
    (hs : s.lastStepTime = t0) : ∀ n : ℕ,
    (stepIter s t0 dtMs audioNow n).lastStepTime = t0 + (n:ℝ) * dtMs
    ∧ (stepIter s t0 dtMs audioNow n).targetPosition = s.targetPosition
    ∧ (stepIter s t0 dtMs audioNow n).smoothingTimeConstant
        = s.smoothingTimeConstant
    ∧ (stepIter s t0 dtMs audioNow n).smoothedPosition
        = (smoothIter (stepAlpha s.smoothingTimeConstant (dtMs / 1000))
            s.targetPosition.1 s.smoothedPosition.1 n,
           smoothIter (stepAlpha s.smoothingTimeConstant (dtMs / 1000))
            s.targetPosition.2.1 s.smoothedPosition.2.1 n,
           smoothIter (stepAlpha s.smoothingTimeConstant (dtMs / 1000))
            s.targetPosition.2.2 s.smoothedPosition.2.2 n) := by
  intro n
  induction n with
  | zero =>
    refine ⟨by simp [stepIter, hs], rfl, rfl, ?_⟩
    simp [stepIter, smoothIter]
  | succ n ih =>
    obtain ⟨ihl, iht, ihc, ihs⟩ := ih
    have hdt : (t0 + ((n:ℝ) + 1) * dtMs
        - (stepIter s t0 dtMs audioNow n).lastStepTime) / 1000 = dtMs / 1000 := by
      rw [ihl]
      ring
    refine ⟨?_, ?_, ?_, ?_⟩
    · rw [show stepIter s t0 dtMs audioNow (n+1)
          = (stepEntity (stepIter s t0 dtMs audioNow n)
              (t0 + ((n:ℝ) + 1) * dtMs) audioNow).1 from rfl]
      rw [show ∀ u ts an, (stepEntity u ts an).1.lastStepTime = ts
          from fun u ts an => rfl]
      push_cast
      ring
    · rw [show stepIter s t0 dtMs audioNow (n+1)
          = (stepEntity (stepIter s t0 dtMs audioNow n)
              (t0 + ((n:ℝ) + 1) * dtMs) audioNow).1 from rfl]
      rw [show ∀ u ts an, (stepEntity u ts an).1.targetPosition
          = u.targetPosition from fun u ts an => rfl]
      exact iht
    · rw [show stepIter s t0 dtMs audioNow (n+1)
          = (stepEntity (stepIter s t0 dtMs audioNow n)
              (t0 + ((n:ℝ) + 1) * dtMs) audioNow).1 from rfl]
      rw [show ∀ u ts an, (stepEntity u ts an).1.smoothingTimeConstant
          = u.smoothingTimeConstant from fun u ts an => rfl]
      exact ihc
    · rw [show stepIter s t0 dtMs audioNow (n+1)
          = (stepEntity (stepIter s t0 dtMs audioNow n)
              (t0 + ((n:ℝ) + 1) * dtMs) audioNow).1 from rfl]
      rw [show ∀ u ts an, (stepEntity u ts an).1.smoothedPosition
          = smoothVec u.smoothedPosition u.targetPosition
              (stepAlpha u.smoothingTimeConstant ((ts - u.lastStepTime) / 1000))
          from fun u ts an => rfl]
      rw [hdt, iht, ihc, ihs]
      rfl

/-- C7: the smoothing factor `step` uses over an elapsed interval `dt`
equals `1 − e^(−dt/τ)` when the entity's time constant `τ` is positive
and `1` when `τ ≤ 0`; and with a constant target and a fixed per-step
interval, after `n` calls to `step` the per-component error of the
smoothed position equals `|initial − target| × (1 − alpha)^n` (the
target itself being left unchanged by `step`). -/
theorem step_smoothing_alpha_and_convergence (s : EntityState)
    (t0 dtMs audioNow : ℝ) (hs : s.lastStepTime = t0) :
    (∀ dt : ℝ, 0 < s.smoothingTimeConstant →
      stepAlpha s.smoothingTimeConstant dt
        = 1 - Real.exp (-dt / s.smoothingTimeConstant))
    ∧ (∀ dt : ℝ, s.smoothingTimeConstant ≤ 0 →
        stepAlpha s.smoothingTimeConstant dt = 1)
    ∧ ∀ n : ℕ,
        (stepIter s t0 dtMs audioNow n).targetPosition = s.targetPosition
        ∧ |(stepIter s t0 dtMs audioNow n).smoothedPosition.1
            - s.targetPosition.1|
          = |s.smoothedPosition.1 - s.targetPosition.1|
            * (1 - stepAlpha s.smoothingTimeConstant (dtMs / 1000)) ^ n
        ∧ |(stepIter s t0 dtMs audioNow n).smoothedPosition.2.1
            - s.targetPosition.2.1|
          = |s.smoothedPosition.2.1 - s.targetPosition.2.1|
            * (1 - stepAlpha s.smoothingTimeConstant (dtMs / 1000)) ^ n
        ∧ |(stepIter s t0 dtMs audioNow n).smoothedPosition.2.2
            - s.targetPosition.2.2|
          = |s.smoothedPosition.2.2 - s.targetPosition.2.2|
            * (1 - stepAlpha s.smoothingTimeConstant (dtMs / 1000)) ^ n := by
  have halpha := stepAlpha_le_one s.smoothingTimeConstant (dtMs / 1000)
  refine ⟨?_, ?_, ?_⟩
  · intro dt hpos
    unfold stepAlpha
    rw [if_neg (not_le.mpr hpos)]
  · intro dt hle
    unfold stepAlpha
    rw [if_pos hle]
  · intro n
    obtain ⟨-, iht, -, ihs⟩ := stepIter_state s t0 dtMs audioNow hs n
    refine ⟨iht, ?_, ?_, ?_⟩
    · rw [ihs]
      exact smoothIter_error _ _ _ halpha n
    · rw [ihs]
      exact smoothIter_error _ _ _ halpha n
    · rw [ihs]
      exact smoothIter_error _ _ _ halpha n

/-- Concrete entity used as the C7 witness input: time constant `0.12`,
initial smoothed position `(1,0,0)`, target `(0,0,0)`. -/
noncomputable def exampleEntity : EntityState :=
  EntityState.mk ((0:ℝ), (0:ℝ), (0:ℝ)) ((1:ℝ), (0:ℝ), (0:ℝ)) none none none
    none none 0 0 0.12 32 0.02 true false false

/-- Witness for C7 at a concrete input: `exampleEntity` stepped every
16 ms. -/
theorem step_smoothing_alpha_and_convergence_witness :
    exampleEntity.lastStepTime = 0
    ∧ ((∀ dt : ℝ, 0 < exampleEntity.smoothingTimeConstant →
        stepAlpha exampleEntity.smoothingTimeConstant dt
          = 1 - Real.exp (-dt / exampleEntity.smoothingTimeConstant))
      ∧ (∀ dt : ℝ, exampleEntity.smoothingTimeConstant ≤ 0 →
          stepAlpha exampleEntity.smoothingTimeConstant dt = 1)
      ∧ ∀ n : ℕ,
          (stepIter exampleEntity 0 16 0 n).targetPosition
            = exampleEntity.targetPosition
          ∧ |(stepIter exampleEntity 0 16 0 n).smoothedPosition.1
              - exampleEntity.targetPosition.1|
            = |exampleEntity.smoothedPosition.1 - exampleEntity.targetPosition.1|
              * (1 - stepAlpha exampleEntity.smoothingTimeConstant (16 / 1000)) ^ n
          ∧ |(stepIter exampleEntity 0 16 0 n).smoothedPosition.2.1
              - exampleEntity.targetPosition.2.1|
            = |exampleEntity.smoothedPosition.2.1
                - exampleEntity.targetPosition.2.1|
              * (1 - stepAlpha exampleEntity.smoothingTimeConstant (16 / 1000)) ^ n
          ∧ |(stepIter exampleEntity 0 16 0 n).smoothedPosition.2.2
              - exampleEntity.targetPosition.2.2|
            = |exampleEntity.smoothedPosition.2.2
                - exampleEntity.targetPosition.2.2|
              * (1 - stepAlpha exampleEntity.smoothingTimeConstant (16 / 1000)) ^ n) :=
  ⟨rfl, step_smoothing_alpha_and_convergence exampleEntity 0 16 0 rfl⟩

/-- Concrete entity with a tracked forward vector, used for the C5
counterexample and witness: `step` writes its orientation params without
cancelling them first. -/
noncomputable def orientedEntity : EntityState :=
  EntityState.mk ((0:ℝ), (0:ℝ), (0:ℝ)) ((0:ℝ), (0:ℝ), (0:ℝ))
    (some ((1:ℝ), (0:ℝ), (0:ℝ))) (some ((1:ℝ), (0:ℝ), (0:ℝ))) none none none
    0 0 0 32 0 true false false

lemma orientedEntity_ops :
    (stepEntity orientedEntity 1 0).2
      = [.cancel .positionX 0, .cancel .positionY 0, .cancel .positionZ 0,
         .setValue .positionX 0 0, .setValue .positionY 0 0,
         .setValue .positionZ 0 0, .setValue .orientationX 1 0,
         .setValue .orientationY 0 0, .setValue .orientationZ 0 0] := by
  norm_num [stepEntity, orientedEntity, stepAlpha, smoothVec, smoothValue,
    forwardOps, upWriteOps, velocityOps]

/-- Counterexample to C5 as stated: for an entity with a tracked forward
vector, `step` writes the orientation parameters with no preceding
`cancelScheduledValues` on them — cancellation happens only for the three
position parameters — so it is not the case that every parameter written
in the frame is first cancelled. -/
theorem step_does_not_cancel_orientation_params :
    ¬ cancelPrecedesWrite (stepEntity orientedEntity 1 0).2 := by
  rw [orientedEntity_ops]
  intro h
  obtain ⟨i, hlt, heq⟩ := h 6 (by norm_num) PannerParam.orientationX 1 0 rfl
  interval_cases i <;> simp [pannerOpAt] at heq

lemma forwardOps_filter_pos (fwd : Option Vec3) (t : ℝ) (p : PannerParam)
    (hp : p = PannerParam.positionX ∨ p = PannerParam.positionY
      ∨ p = PannerParam.positionZ) :
    (forwardOps fwd t).filter (fun o => o.onParam p) = [] := by
  rw [List.filter_eq_nil_iff]
  intro o ho
  obtain ⟨q, val, hq, rfl⟩ := forwardOps_shape fwd t o ho
  rcases hq with rfl | rfl | rfl <;> rcases hp with rfl | rfl | rfl <;>
    simp [PannerOp.onParam]

lemma upWriteOps_filter_pos (upNew : Option Vec3) (b : Bool) (t : ℝ)
    (p : PannerParam)
    (hp : p = PannerParam.positionX ∨ p = PannerParam.positionY
      ∨ p = PannerParam.positionZ) :
    (upWriteOps upNew b t).filter (fun o => o.onParam p) = [] := by
  rw [List.filter_eq_nil_iff]
  intro o ho
  obtain ⟨q, val, hq, rfl⟩ := upWriteOps_shape upNew b t o ho
  rcases hq with rfl | rfl | rfl <;> rcases hp with rfl | rfl | rfl <;>
    simp [PannerOp.onParam]

lemma velocityOps_filter_pos (vel : Option Vec3) (b : Bool) (p : PannerParam) :
    (velocityOps vel b).filter (fun o => o.onParam p) = [] := by
  rw [List.filter_eq_nil_iff]
  intro o ho
  obtain ⟨v, -, rfl⟩ := velocityOps_shape vel b o ho
  simp [PannerOp.onParam]

/-- C5 (corrected): within one `step` frame, for every registered entity,
the three position parameters are each cancelled from the write time
`audioClockNow + lookAhead` and then written once at that same time —
the cancel preceding the write on that parameter — but the orientation
parameters are written with no cancellation at all: the only
`cancelScheduledValues` calls in the frame's trace are the three position
cancels at the write time. -/
theorem step_cancels_position_params_before_write_only
    (sys : List (String × EntityState)) (ts an : ℝ) (id : String)
    (s : EntityState) (hmem : (id, s) ∈ sys) :
    ((id, (stepEntity s ts an).2) ∈ (step sys ts an).2)
    ∧ ((stepEntity s ts an).2.filter (fun o => o.onParam PannerParam.positionX)
        = [.cancel .positionX (an + s.lookAheadSeconds),
           .setValue .positionX ((stepEntity s ts an).1.smoothedPosition.1)
             (an + s.lookAheadSeconds)])
    ∧ ((stepEntity s ts an).2.filter (fun o => o.onParam PannerParam.positionY)
        = [.cancel .positionY (an + s.lookAheadSeconds),
           .setValue .positionY ((stepEntity s ts an).1.smoothedPosition.2.1)
             (an + s.lookAheadSeconds)])
    ∧ ((stepEntity s ts an).2.filter (fun o => o.onParam PannerParam.positionZ)
        = [.cancel .positionZ (an + s.lookAheadSeconds),
           .setValue .positionZ ((stepEntity s ts an).1.smoothedPosition.2.2)
             (an + s.lookAheadSeconds)])
    ∧ (∀ p t, PannerOp.cancel p t ∈ (stepEntity s ts an).2 →
        (p = PannerParam.positionX ∨ p = PannerParam.positionY
          ∨ p = PannerParam.positionZ)
        ∧ t = an + s.lookAheadSeconds) := by
  refine ⟨List.mem_map.mpr ⟨(id, s), hmem, rfl⟩, ?_, ?_, ?_, ?_⟩
  · simp only [stepEntity]
    rw [List.filter_append, List.filter_append, List.filter_append,
      forwardOps_filter_pos _ _ _ (Or.inl rfl),
      upWriteOps_filter_pos _ _ _ _ (Or.inl rfl),
      velocityOps_filter_pos]
    simp [PannerOp.onParam]
  · simp only [stepEntity]
    rw [List.filter_append, List.filter_append, List.filter_append,
      forwardOps_filter_pos _ _ _ (Or.inr (Or.inl rfl)),
      upWriteOps_filter_pos _ _ _ _ (Or.inr (Or.inl rfl)),
      velocityOps_filter_pos]
    simp [PannerOp.onParam]
  · simp only [stepEntity]
    rw [List.filter_append, List.filter_append, List.filter_append,
      forwardOps_filter_pos _ _ _ (Or.inr (Or.inr rfl)),
      upWriteOps_filter_pos _ _ _ _ (Or.inr (Or.inr rfl)),
      velocityOps_filter_pos]
    simp [PannerOp.onParam]
  · intro p t hc
    simp only [stepEntity, List.append_assoc, List.mem_append] at hc
    rcases hc with hc | hc | hc | hc
    · simp only [List.mem_cons] at hc
      rcases hc with hc | hc | hc | hc | hc | hc | hc
      · obtain ⟨hp, ht⟩ := PannerOp.cancel.inj hc
        exact ⟨Or.inl hp, ht⟩
      · obtain ⟨hp, ht⟩ := PannerOp.cancel.inj hc
        exact ⟨Or.inr (Or.inl hp), ht⟩
      · obtain ⟨hp, ht⟩ := PannerOp.cancel.inj hc
        exact ⟨Or.inr (Or.inr hp), ht⟩
      · exact PannerOp.noConfusion hc
      · exact PannerOp.noConfusion hc
      · exact PannerOp.noConfusion hc
      · exact absurd hc (List.not_mem_nil _)
    · obtain ⟨q, val, -, heq⟩ := forwardOps_shape _ _ _ hc
      cases heq
    · obtain ⟨q, val, -, heq⟩ := upWriteOps_shape _ _ _ _ hc
      cases heq
    · obtain ⟨v, -, heq⟩ := velocityOps_shape _ _ _ hc
      cases heq

/-- Witness for the corrected C5 at a concrete input: a system with the
single registered entity `orientedEntity`, stepped at frame time 1. -/
theorem step_cancels_position_params_before_write_only_witness :
    (("e", orientedEntity) ∈ [("e", orientedEntity)]
    ∧ ((("e", (stepEntity orientedEntity 1 0).2)
          ∈ (step [("e", orientedEntity)] 1 0).2)
      ∧ ((stepEntity orientedEntity 1 0).2.filter
            (fun o => o.onParam PannerParam.positionX)
          = [.cancel .positionX (0 + orientedEntity.lookAheadSeconds),
             .setValue .positionX
               ((stepEntity orientedEntity 1 0).1.smoothedPosition.1)
               (0 + orientedEntity.lookAheadSeconds)])
      ∧ ((stepEntity orientedEntity 1 0).2.filter
            (fun o => o.onParam PannerParam.positionY)
          = [.cancel .positionY (0 + orientedEntity.lookAheadSeconds),
             .setValue .positionY
               ((stepEntity orientedEntity 1 0).1.smoothedPosition.2.1)
               (0 + orientedEntity.lookAheadSeconds)])
      ∧ ((stepEntity orientedEntity 1 0).2.filter
            (fun o => o.onParam PannerParam.positionZ)
          = [.cancel .positionZ (0 + orientedEntity.lookAheadSeconds),
             .setValue .positionZ
               ((stepEntity orientedEntity 1 0).1.smoothedPosition.2.2)
               (0 + orientedEntity.lookAheadSeconds)])
      ∧ (∀ p t, PannerOp.cancel p t ∈ (stepEntity orientedEntity 1 0).2 →
          (p = PannerParam.positionX ∨ p = PannerParam.positionY
            ∨ p = PannerParam.positionZ)
          ∧ t = 0 + orientedEntity.lookAheadSeconds))) :=
  ⟨List.mem_singleton.mpr rfl,
   step_cancels_position_params_before_write_only [("e", orientedEntity)] 1 0
    "e" orientedEntity (List.mem_singleton.mpr rfl)⟩

end Sync

/-! ## Proofs about the motif schedulers -/

namespace Motif

lemma motifStart_activeVoices (p : MotifParams) (s : MotifState)
    (now g : ℝ) (tid : ℕ) :
    (motifStart p s now g tid).1.activeVoices = s.activeVoices := by
  unfold motifStart
  split <;> rfl

lemma triggerCell_activeVoices (cfg : GentleInquiryConfig) (s : MotifState)
    (t r : ℝ) (fv : ℕ) :
    ∃ newVids, (triggerCell cfg s t r fv).1.activeVoices
      = s.activeVoices ++ newVids := by
  simp only [triggerCell]
  split
  · exact ⟨[], by simp⟩
  · exact ⟨_, rfl⟩

lemma voiceEnded_activeVoices (s : MotifState) (vid : ℕ) :
    (voiceEnded s vid).1.activeVoices
      = s.activeVoices.filter (fun v => v ≠ vid) := rfl

lemma motifStop_clears (p : MotifParams) (s : MotifState)
    (hrun : s.isRunning = true) (now g : ℝ) (vg : ℕ → ℝ) :
    (motifStop p s now g vg).1.activeVoices = [] := by
  unfold motifStop
  rw [if_pos hrun]

/-- Counterexample to C3 as stated: `stop()` on a running gentle-inquiry
instance clears the active-voice set, removing a voice whose completion
notification has not fired — so the completion notification is not the
only operation that removes a voice from the set. -/
theorem stop_removes_voice_before_completion :
    5 ∈ (MotifState.mk true 0 0 (some 7) [5]).activeVoices
    ∧ (∀ vid : ℕ,
        (MotifEvent.stop 0 0 (fun _ => 0)) ≠ MotifEvent.ended vid)
    ∧ 5 ∉ (applyEvent gentleInquiryParams ⟨0, 0.85, 0.9, DEFAULT_CHORD⟩
        (MotifState.mk true 0 0 (some 7) [5])
        (MotifEvent.stop 0 0 (fun _ => 0))).1.activeVoices := by
  refine ⟨List.mem_singleton.mpr rfl, ?_, ?_⟩
  · intro vid h
    cases h
  · rw [show (applyEvent gentleInquiryParams ⟨0, 0.85, 0.9, DEFAULT_CHORD⟩
        (MotifState.mk true 0 0 (some 7) [5])
        (MotifEvent.stop 0 0 (fun _ => 0)))
      = motifStop gentleInquiryParams (MotifState.mk true 0 0 (some 7) [5])
          0 0 (fun _ => 0) from rfl,
      show (motifStop gentleInquiryParams (MotifState.mk true 0 0 (some 7) [5])
          0 0 (fun _ => 0)).1.activeVoices = []
        from motifStop_clears _ _ rfl _ _ _]
    exact List.not_mem_nil 5

/-- C3 (amended): for the motif schedulers, a voice joins the active set
at creation (`triggerCell` only appends new voices), stays in the set
under `start()` and under other voices' completion notifications, its own
completion notification deletes exactly that voice, and `stop()`
force-releases and removes all voices; no operation other than the
voice's own completion notification or `stop()` removes a voice from the
set. -/
theorem voice_membership_lifecycle (p : MotifParams)
    (cfg : GentleInquiryConfig) (s : MotifState) :
    (∀ now g : ℝ, ∀ tid : ℕ,
      (motifStart p s now g tid).1.activeVoices = s.activeVoices)
    ∧ (∀ t r : ℝ, ∀ fv : ℕ, ∃ newVids,
        (triggerCell cfg s t r fv).1.activeVoices = s.activeVoices ++ newVids)
    ∧ (∀ vid, (voiceEnded s vid).1.activeVoices
        = s.activeVoices.filter (fun v => v ≠ vid))
    ∧ (s.isRunning = true → ∀ now g : ℝ, ∀ vg : ℕ → ℝ,
        (motifStop p s now g vg).1.activeVoices = [])
    ∧ (∀ e : MotifEvent, ∀ vid ∈ s.activeVoices,
        (∀ now g : ℝ, ∀ vg : ℕ → ℝ, e ≠ MotifEvent.stop now g vg) →
        e ≠ MotifEvent.ended vid →
        vid ∈ (applyEvent p cfg s e).1.activeVoices) := by
  refine ⟨motifStart_activeVoices p s, triggerCell_activeVoices cfg s,
    voiceEnded_activeVoices s, fun h now g vg => motifStop_clears p s h now g vg,
    ?_⟩
  intro e vid hvid hnstop hnend
  cases e with
  | start now g tid =>
    rw [show (applyEvent p cfg s (MotifEvent.start now g tid))
        = motifStart p s now g tid from rfl,
      motifStart_activeVoices]
    exact hvid
  | stop now g vg => exact absurd rfl (hnstop now g vg)
  | cell t r fv =>
    obtain ⟨newVids, hnew⟩ := triggerCell_activeVoices cfg s t r fv
    rw [show (applyEvent p cfg s (MotifEvent.cell t r fv))
        = triggerCell cfg s t r fv from rfl, hnew]
    exact List.mem_append_left _ hvid
  | ended w =>
    rw [show (applyEvent p cfg s (MotifEvent.ended w)) = voiceEnded s w from rfl,
      voiceEnded_activeVoices]
    rw [List.mem_filter]
    refine ⟨hvid, ?_⟩
    simp only [decide_eq_true_eq]
    intro hcon
    exact hnend (by rw [hcon])

/-- Witness for the amended C3 at a concrete input: a running
gentle-inquiry instance holding voice 5, receiving another voice's
completion notification. -/
theorem voice_membership_lifecycle_witness :
    ((MotifState.mk true 0 0 (some 7) [5]).isRunning = true
      ∧ 5 ∈ (MotifState.mk true 0 0 (some 7) [5]).activeVoices
      ∧ (∀ now g : ℝ, ∀ vg : ℕ → ℝ,
          MotifEvent.ended 9 ≠ MotifEvent.stop now g vg)
      ∧ MotifEvent.ended 9 ≠ MotifEvent.ended 5)
    ∧ ((∀ now g : ℝ, ∀ tid : ℕ,
        (motifStart gentleInquiryParams (MotifState.mk true 0 0 (some 7) [5])
          now g tid).1.activeVoices
          = (MotifState.mk true 0 0 (some 7) [5]).activeVoices)
      ∧ (∀ t r : ℝ, ∀ fv : ℕ, ∃ newVids,
          (triggerCell ⟨0, 0.85, 0.9, DEFAULT_CHORD⟩
            (MotifState.mk true 0 0 (some 7) [5]) t r fv).1.activeVoices
            = (MotifState.mk true 0 0 (some 7) [5]).activeVoices ++ newVids)
      ∧ (∀ vid, (voiceEnded (MotifState.mk true 0 0 (some 7) [5])
            vid).1.activeVoices
          = (MotifState.mk true 0 0 (some 7) [5]).activeVoices.filter
              (fun v => v ≠ vid))
      ∧ ((MotifState.mk true 0 0 (some 7) [5]).isRunning = true →
          ∀ now g : ℝ, ∀ vg : ℕ → ℝ,
            (motifStop gentleInquiryParams (MotifState.mk true 0 0 (some 7) [5])
              now g vg).1.activeVoices = [])
      ∧ (∀ e : MotifEvent, ∀ vid ∈ (MotifState.mk true 0 0 (some 7) [5]).activeVoices,
          (∀ now g : ℝ, ∀ vg : ℕ → ℝ, e ≠ MotifEvent.stop now g vg) →
          e ≠ MotifEvent.ended vid →
          vid ∈ (applyEvent gentleInquiryParams ⟨0, 0.85, 0.9, DEFAULT_CHORD⟩
            (MotifState.mk true 0 0 (some 7) [5]) e).1.activeVoices)) :=
  ⟨by
    refine ⟨rfl, List.mem_singleton.mpr rfl, ?_, ?_⟩
    · intro now g vg h
      cases h
    · intro h
      exact absurd (MotifEvent.ended.inj h) (by decide),
   voice_membership_lifecycle gentleInquiryParams ⟨0, 0.85, 0.9, DEFAULT_CHORD⟩
    (MotifState.mk true 0 0 (some 7) [5])⟩

/-- C9: `start()` on a running scheduler instance changes nothing and
issues no operation, so two consecutive `start()` calls from a stopped
state leave exactly one active periodic poll (one timer created, none
cleared); and `stop()` on a stopped instance mutates no state and cancels
nothing (its trace is empty). -/
theorem start_idempotent_stop_noop (p : MotifParams)
    (srun sstop : MotifState) (hrun : srun.isRunning = true)
    (hstop : sstop.isRunning = false) (now now2 g g2 : ℝ) (vg : ℕ → ℝ)
    (tid tid2 : ℕ) :
    (motifStart p srun now g tid = (srun, []))
    ∧ (motifStop p sstop now g vg = (sstop, []))
    ∧ (motifStart p (motifStart p sstop now g tid).1 now2 g2 tid2
        = ((motifStart p sstop now g tid).1, []))
    ∧ activeTimers ((motifStart p sstop now g tid).2
        ++ (motifStart p (motifStart p sstop now g tid).1 now2 g2 tid2).2)
      = [tid] := by
  have hns : ¬ (sstop.isRunning = true) := by simp [hstop]
  have heq1 : motifStart p sstop now g tid
      = ({ isRunning := true
           nextEventTime := now + p.startOffset
           cellIndex := 0
           schedulerId := some tid
           activeVoices := sstop.activeVoices },
         [.outputCancel now, .outputSet g now,
          .outputRamp p.startRampTarget (now + p.startRampTime),
          .timerStart tid p.lookAheadMs]) := by
    unfold motifStart
    rw [if_neg hns]
  refine ⟨?_, ?_, ?_, ?_⟩
  · unfold motifStart
    rw [if_pos hrun]
  · unfold motifStop
    rw [if_neg hns]
  · rw [heq1]
    unfold motifStart
    rw [if_pos]
    rfl
  · rw [heq1]
    unfold motifStart
    rw [if_pos]
    · rfl
    · rfl

/-- Witness for C9 at a concrete input: a running instance holding timer
3, and a stopped instance started twice with fresh timer ids 1 and 2. -/
theorem start_idempotent_stop_noop_witness :
    ((MotifState.mk true 0 0 (some 3) []).isRunning = true
      ∧ (MotifState.mk false 0 0 none []).isRunning = false)
    ∧ ((motifStart risingHopeParams (MotifState.mk true 0 0 (some 3) []) 0 0 1
        = (MotifState.mk true 0 0 (some 3) [], []))
      ∧ (motifStop risingHopeParams (MotifState.mk false 0 0 none []) 0 0
          (fun _ => 0) = (MotifState.mk false 0 0 none [], []))
      ∧ (motifStart risingHopeParams
          (motifStart risingHopeParams (MotifState.mk false 0 0 none []) 0 0 1).1
          1 0 2
          = ((motifStart risingHopeParams (MotifState.mk false 0 0 none [])
              0 0 1).1, []))
      ∧ activeTimers ((motifStart risingHopeParams
            (MotifState.mk false 0 0 none []) 0 0 1).2
          ++ (motifStart risingHopeParams
              (motifStart risingHopeParams (MotifState.mk false 0 0 none [])
                0 0 1).1 1 0 2).2)
        = [1]) :=
  ⟨⟨rfl, rfl⟩,
   start_idempotent_stop_noop risingHopeParams (MotifState.mk true 0 0 (some 3) [])
    (MotifState.mk false 0 0 none []) rfl rfl 0 1 0 0 (fun _ => 0) 1 2⟩

end Motif

end Csound
